import Mathlib

/-!
Shallow embedding of the draft-engine core of the MTG-Draft-Sim repository
(source: src/unnamed/part_002, the main App component).  Pure helpers of the
JavaScript source are translated into executable Lean definitions; the React
state updates of a pick / undo / set-change are modelled as pure transition
functions on an explicit draft-state record.  Randomness (Math.random rolls,
array shuffles) is passed in explicitly: a shuffle becomes a list that the
theorems constrain to be a permutation of the shuffled source list, and a
uniform index choice becomes a natural number reduced modulo the list length,
which reaches exactly the outcomes the source can produce.  JavaScript numbers
are modelled as rationals, JS string operations (includes, split, sort) by
executable counterparts defined below.
-/

namespace MTGDraftSim

/-- Prefix test on character lists (replacement for the JS startsWith used to
reason about synthesized land identifiers). -/
def listStarts : List Char → List Char → Bool
  | [], _ => true
  | _ :: _, [] => false
  | p :: ps, c :: cs => p == c && listStarts ps cs

/-- Substring occurrence test on character lists. -/
def listHasSub (pat : List Char) : List Char → Bool
  | [] => listStarts pat []
  | c :: rest => listStarts pat (c :: rest) || listHasSub pat rest

/-- JS String.prototype.includes, as used on type lines throughout the app. -/
def jsIncludes (s pat : String) : Bool :=
  listHasSub pat.toList s.toList

/-- Insert keeping every already-placed element that the order accepts before
the new one, so that the resulting sort is stable (JS Array.prototype.sort is
stable, which the source relies on for rarity sorting and tie-breaking). -/
def insertLe {α : Type} (le : α → α → Bool) (x : α) : List α → List α
  | [] => [x]
  | y :: ys => if le y x then y :: insertLe le x ys else x :: y :: ys

/-- Stable sort: fold the input left to right, inserting each element after
all earlier elements the comparator keeps before it. -/
def isort {α : Type} (le : α → α → Bool) (l : List α) : List α :=
  l.foldl (fun acc x => insertLe le x acc) []

/-- JS Array.prototype.slice(-n): keep the last n entries. -/
def takeLast {α : Type} (n : Nat) (l : List α) : List α :=
  l.drop (l.length - n)

/-- A Scryfall card record, restricted to the fields the draft core reads.
power and toughness carry the result of parseInt(...) parsed with the
JS fallback to 0 for a missing or non-numeric field; cmc likewise carries
the number the source reads through (card.cmc || 0). -/
structure Card where
  id : String
  name : String
  rarity : String
  cmc : Rat
  typeLine : String
  colors : List String
  power : Int
  toughness : Int
deriving DecidableEq

/-- card.type_line.includes('Basic Land'). -/
def basicLand (c : Card) : Bool :=
  jsIncludes c.typeLine "Basic Land"

instance : Inhabited Card :=
  ⟨{ id := ""
     name := ""
     rarity := ""
     cmc := 0
     typeLine := ""
     colors := []
     power := 0
     toughness := 0 }⟩

/-- One row of the per-card ratings CSV as produced by loadCardStats: each
field is parseFloat(row[...] || '0') (so a missing column yields 0), and the
reported color-identity string (row.Color || ''). -/
structure CardStatsEntry where
  gihwr : Rat
  ohwr : Rat
  gdwr : Rat
  color : String
deriving DecidableEq

/-- cardStats[card.name]: the stats mapping keyed by card NAME. -/
def lookupStats (cs : List (String × CardStatsEntry)) (name : String) :
    Option CardStatsEntry :=
  (cs.find? (fun p => p.1 == name)).map (fun p => p.2)

/-- colorPairStats[label]. -/
def lookupPair (cps : List (String × Rat)) (key : String) : Option Rat :=
  (cps.find? (fun p => p.1 == key)).map (fun p => p.2)

/-- stats.color || '' : empty when there is no stats entry for the name. -/
def statsColorOf : Option CardStatsEntry → String
  | some s => s.color
  | none => ""

/-- str.split('') : the list of one-character strings of a string. -/
def stringSymbols (s : String) : List String :=
  s.toList.map Char.toString

/-- colorLetterToName from getColorPairBonus. -/
def colorLetterToName (c : String) : String :=
  if c == "W" then "White"
  else if c == "U" then "Blue"
  else if c == "B" then "Black"
  else if c == "R" then "Red"
  else if c == "G" then "Green"
  else c

/-- sortedKey: [...colors].sort().join('') — the JS default sort on
one-letter strings is the lexicographic order on strings. -/
def sortedKeyOf (colors : List String) : String :=
  String.join (isort (fun a b => decide (a ≤ b)) colors)

/-- The live two-color (guild) label table, keys exactly as written in the
source (several of them are not in sorted-key form, so those lookups miss). -/
def twoColorMap (k : String) : Option String :=
  if k == "UW" then some "Azorius (WU)"
  else if k == "UB" then some "Dimir (UB)"
  else if k == "BR" then some "Rakdos (BR)"
  else if k == "RG" then some "Gruul (RG)"
  else if k == "GW" then some "Selesnya (GW)"
  else if k == "WB" then some "Orzhov (WB)"
  else if k == "BG" then some "Golgari (BG)"
  else if k == "GU" then some "Simic (GU)"
  else if k == "UR" then some "Izzet (UR)"
  else if k == "RW" then some "Boros (RW)"
  else none

/-- fixedThreeColorMap — the live three-color table (the first threeColorMap
in the source is dead: only the fixed one is ever read). -/
def fixedThreeColorMap (k : String) : Option String :=
  if k == "RUW" then some "Jeskai (WUR)"
  else if k == "BGU" then some "Sultai (UBG)"
  else if k == "BRW" then some "Mardu (BRW)"
  else if k == "GRU" then some "Temur (RGU)"
  else if k == "BGW" then some "Abzan (GWB)"
  else if k == "GWU" then some "Bant (GWU)"
  else if k == "BUW" then some "Esper (WUB)"
  else if k == "BUR" then some "Grixis (UBR)"
  else if k == "BGR" then some "Jund (BRG)"
  else if k == "GRW" then some "Naya (RGW)"
  else none

/-- A missing table entry interpolated into a template string renders as the
text "undefined" in JS. -/
def optionLabel : Option String → String
  | some s => s
  | none => "undefined"

/-- getColorPairBonus, ported line by line.  A `none` candidate models a JS
`undefined` pushed into keyCandidates, which the lookup loop skips via its
key-truthiness test.  (The nested aiColors.length > 1 block inside the
length === 1 branch of the source is statically dead and omitted.) -/
def getColorPairBonus (cardColors aiColors : List String)
    (cps : List (String × Rat)) : Rat :=
  if cardColors.length = 0 ∨ aiColors.length = 0 then 0
  else if ¬ (cardColors.all (fun c => aiColors.contains c)) then 0
  else
    let aiKey := sortedKeyOf aiColors
    let keyCandidates : List (Option String) :=
      (if aiColors.length = 1 then
        [some ("Mono-" ++ colorLetterToName (aiColors.headD "")), some "Mono-color"]
       else []) ++
      (if aiColors.length = 2 then
        [twoColorMap aiKey, some (optionLabel (twoColorMap aiKey) ++ " + Splash"),
         some "Two-color", some "Two-color + Splash"]
       else []) ++
      (if aiColors.length = 3 then
        [fixedThreeColorMap aiKey,
         some (optionLabel (fixedThreeColorMap aiKey) ++ " + Splash"),
         some "Three-color", some "Three-color + Splash"]
       else []) ++
      (if aiColors.length = 4 then
        [some "Four-color", some "Four-color + Splash"] else []) ++
      (if aiColors.length = 5 then
        [some "Five-color", some "All Colors (WUBRG)"] else []) ++
      [some "All Decks"]
    let winRate : Option Rat := keyCandidates.foldl
      (fun acc k =>
        match acc with
        | some _ => acc
        | none =>
          match k with
          | some key => lookupPair cps key
          | none => none)
      none
    match winRate with
    | some w => (w - 50) * (1 / 2)
    | none => 0

/-- rarityMap[card.rarity] || 1. -/
def rarityScoreOf (r : String) : Rat :=
  if r == "mythic" then 10
  else if r == "rare" then 8
  else if r == "uncommon" then 5
  else if r == "common" then 3
  else 1

/-- The no-statistics branch of calculateCardScore: rarity score plus
mana-value score plus type bonus. -/
def fallbackStatsScore (card : Card) : Rat :=
  let rarityScore := rarityScoreOf card.rarity
  let cmcScore := max (10 - card.cmc) 0
  let typeScore : Rat :=
    if jsIncludes card.typeLine "Creature" then
      ((card.power + card.toughness : Int) : Rat) / 2 + 2
    else if jsIncludes card.typeLine "Instant" || jsIncludes card.typeLine "Sorcery" then 4
    else if jsIncludes card.typeLine "Artifact" || jsIncludes card.typeLine "Enchantment" then 3
    else 0
  rarityScore + cmcScore + typeScore

/-- The statistics branch of calculateCardScore (taken when stats.gihwr is
truthy, i.e. non-zero). -/
def statsBranchScore (s : CardStatsEntry) : Rat :=
  s.gihwr * (3 / 2) + (if s.ohwr ≠ 0 then s.ohwr * (4 / 5) else 0) +
    (if s.gdwr ≠ 0 then s.gdwr * (7 / 10) else 0)

/-- The color-affinity component of calculateCardScore over the color-info
list the source actually uses. -/
def colorScoreOf (info aiColors : List String) : Rat :=
  if info.length = 0 then 3
  else
    (info.map (fun c => if aiColors.contains c then (5 : Rat) else 0)).sum +
      (if info.all (fun c => aiColors.contains c) then 3 else 0)

/-- calculateCardScore.  Note the source computes
cardColorInfo = (stats.color || '').split('') || card.colors; since split
always returns an array (truthy even when empty), the || card.colors
alternative is dead code and the card's own colors field is never consulted
here — the embedding reproduces that behaviour. -/
def calculateCardScore (cs : List (String × CardStatsEntry))
    (cps : List (String × Rat)) (card : Card) (aiColors : List String) : Rat :=
  let stats := lookupStats cs card.name
  let statsScore : Rat :=
    match stats with
    | some s => if s.gihwr ≠ 0 then statsBranchScore s else fallbackStatsScore card
    | none => fallbackStatsScore card
  let cardColorInfo := stringSymbols (statsColorOf stats)
  let colorScore := colorScoreOf cardColorInfo aiColors
  let colorPairBonus := getColorPairBonus cardColorInfo aiColors cps
  match stats with
  | some s =>
    if s.gihwr ≠ 0 then statsScore + colorScore * (3 / 2) + colorPairBonus
    else statsScore + colorScore + colorPairBonus
  | none => statsScore + colorScore + colorPairBonus

/-- aiPickCard: the source stably sorts the pack by descending score and takes
the head, which is the first card attaining the maximal score; the fold below
computes exactly that element (strict improvement replaces the candidate, so
the earliest maximum survives). -/
def aiPickCard (cs : List (String × CardStatsEntry)) (cps : List (String × Rat))
    (pack : List Card) (aiColors : List String) : Option Card :=
  match pack with
  | [] => none
  | c :: rest =>
    some (rest.foldl
      (fun best cur =>
        if calculateCardScore cs cps cur aiColors >
            calculateCardScore cs cps best aiColors then cur else best)
      c)

/-- A seat at the draft table. -/
structure Player where
  id : String
  colors : List String
  draftedCards : List Card
  sideboard : List Card
  packs : List (List Card)
deriving DecidableEq

instance : Inhabited Player :=
  ⟨{ id := "", colors := [], draftedCards := [], sideboard := [], packs := [] }⟩

/-- Total number of occurrences of one color symbol across a card list
(the colorCounts accumulation of updatePlayerColors and suggestLands). -/
def countColor (cardsList : List Card) (sym : String) : Nat :=
  (cardsList.map (fun c => (c.colors.filter (fun x => x == sym)).length)).sum

/-- updatePlayerColors: count the five symbols over the drafted cards in the
fixed entry order W,U,B,R,G, stably sort the five entries by descending count
and keep the first two.  Note sortedColors always has length 2 (five entries
sliced to two), so the || fallback to the prior colors in the source is dead
code: the embedding reproduces that the fallback is never taken. -/
def updatePlayerColors (p : Player) : Player :=
  let counts : List (String × Nat) :=
    [("W", countColor p.draftedCards "W"), ("U", countColor p.draftedCards "U"),
     ("B", countColor p.draftedCards "B"), ("R", countColor p.draftedCards "R"),
     ("G", countColor p.draftedCards "G")]
  let sortedColors :=
    ((isort (fun a b => decide (b.2 ≤ a.2)) counts).map (fun p => p.1)).take 2
  { p with colors := if sortedColors.length > 0 then sortedColors else p.colors }

/-- The explicit random choices consumed by one attempt of generatePack. -/
structure PackRand where
  useMythic : Bool
  rareIdx : Nat
  rareFallbackIdx : Nat
  uncommonShuffle : List Card
  commonShuffle : List Card
  landIdx : Nat
  landFallbackIdx : Nat

/-- cards.filter by rarity / basic-land type line, as in generatePack. -/
def commonsOf (cards : List Card) : List Card :=
  cards.filter (fun c => c.rarity == "common")

def uncommonsOf (cards : List Card) : List Card :=
  cards.filter (fun c => c.rarity == "uncommon")

def raresOf (cards : List Card) : List Card :=
  cards.filter (fun c => c.rarity == "rare")

def mythicsOf (cards : List Card) : List Card :=
  cards.filter (fun c => c.rarity == "mythic")

def landsOf (cards : List Card) : List Card :=
  cards.filter (fun c => basicLand c)

/-- l[Math.floor(Math.random() * l.length)]: some uniformly chosen element of
a non-empty list (any in-range index is reachable as i % length), undefined on
an empty list. -/
def pickUniform (l : List Card) (i : Nat) : Option Card :=
  if l.length = 0 then none else l.get? (i % l.length)

/-- rareOrMythic: the mythic list on a successful 12.5% roll when mythics
exist, else the rare list. -/
def rareOrMythicOf (cards : List Card) (useMythic : Bool) : List Card :=
  if (mythicsOf cards).length ≠ 0 ∧ useMythic then mythicsOf cards
  else raresOf cards

/-- The rare slot of generatePack: 12.5% mythic roll when mythics exist, else
a rare, falling back to a random common when neither exists. -/
def rareSlot (cards : List Card) (r : PackRand) : Option Card :=
  if (rareOrMythicOf cards r.useMythic).length ≠ 0 then
    pickUniform (rareOrMythicOf cards r.useMythic) r.rareIdx
  else pickUniform (commonsOf cards) r.rareFallbackIdx

/-- The basic-land slot of generatePack, falling back to a random common when
the pool has no basic lands. -/
def landSlot (cards : List Card) (r : PackRand) : Option Card :=
  if (landsOf cards).length ≠ 0 then pickUniform (landsOf cards) r.landIdx
  else pickUniform (commonsOf cards) r.landFallbackIdx

/-- [rareCard, ...uncommonCards, ...commonCards, landCard].filter(Boolean);
Option.toList realises filter(Boolean) for the two optional slots. -/
def packSlots (cards : List Card) (r : PackRand) : List Card :=
  (rareSlot cards r).toList ++ r.uncommonShuffle.take 3 ++
    r.commonShuffle.take 10 ++ (landSlot cards r).toList

/-- rarityOrder weight; a basic-land type line overrides the card's rarity.
A rarity outside the table gives the JS comparator NaN and an unspecified
order; the weight 6 below is an arbitrary stand-in, and no claim touches that
case (all conclusions are invariant under permutation of the pack). -/
def rarityWeight (c : Card) : Nat :=
  if basicLand c then 5
  else if c.rarity == "mythic" then 1
  else if c.rarity == "rare" then 2
  else if c.rarity == "uncommon" then 3
  else if c.rarity == "common" then 4
  else 6

/-- The final stable sort of a pack by ascending rarity weight. -/
def sortPack (pack : List Card) : List Card :=
  isort (fun a b => decide (rarityWeight a ≤ rarityWeight b)) pack

/-- One attempt of generatePack: returns the sorted pack when the land-count
validation (exactly one basic land) passes, and none when the source would
discard the pack and recurse.  Every pack generatePack ever returns is the
value of an accepted attempt. -/
def generatePackAttempt (cards : List Card) (r : PackRand) : Option (List Card) :=
  if ((packSlots cards r).filter (fun c => basicLand c)).length = 1 then
    some (sortPack (packSlots cards r))
  else none

/-- players.forEach((player, index) => ...) with the running index. -/
def mapWithIndex {α β : Type} (f : Nat → α → β) : Nat → List α → List β
  | _, [] => []
  | i, a :: as => f i a :: mapWithIndex f (i + 1) as

/-- The defensive post-pass repair: a pack holding more than one basic land is
trimmed down to its first one (extraLands = lands.slice(1) are filtered out). -/
def trimLands (pack : List Card) : List Card :=
  let landCards := pack.filter (fun c => basicLand c)
  if landCards.length > 1 then
    pack.filter (fun c => ¬ (landCards.drop 1).contains c)
  else pack

/-- passPacks: snapshot every seat's current-round pack, then give seat i the
snapshot of seat (i+1) mod n when the round is odd (the source labels this
direction "left") and of seat (i-1) mod n when the round is even, repairing
any pack that arrives with more than one basic land. -/
def passPacks (players : List Player) (round : Nat) : List Player :=
  let n := players.length
  let currentPacks := players.map (fun p => p.packs.getD (round - 1) [])
  mapWithIndex
    (fun index player =>
      let nextIndex := if round % 2 = 1 then (index + 1) % n else (index + n - 1) % n
      let received := currentPacks.getD nextIndex []
      { player with packs := player.packs.set (round - 1) (trimLands received) })
    0 players

/-- One undo-history entry: the deep snapshot taken at the start of
handlePick (players plus the pick index).  The JSON round-trip deep copy of
the source preserves values exactly, so the snapshot simply stores them. -/
structure Snapshot where
  players : List Player
  packIndex : Nat
deriving DecidableEq

/-- The mutable top-level draft state of the App component that the pick,
undo and set-change commands read and write. -/
structure DraftState where
  players : List Player
  currentRound : Nat
  currentPackIndex : Nat
  draftComplete : Bool
  draftHistory : List Snapshot
  suggestedCardId : Option String
deriving DecidableEq

/-- One AI seat's move inside handlePick: pick the best card of a non-empty
current-round pack, remove it by identifier, append it to the drafted cards
and recompute the color affinity. -/
def aiTurn (cs : List (String × CardStatsEntry)) (cps : List (String × Rat))
    (round : Nat) (ai : Player) : Player :=
  let aiPack := ai.packs.getD (round - 1) []
  if aiPack.length > 0 then
    match aiPickCard cs cps aiPack ai.colors with
    | some aiCard =>
      updatePlayerColors
        { ai with
          draftedCards := ai.draftedCards ++ [aiCard]
          packs := ai.packs.set (round - 1)
            (aiPack.filter (fun c => ¬ (c.id == aiCard.id))) }
    | none => ai
  else ai

/-- The seat updates of one human pick: the human (seat 0) takes the chosen
card, every AI seat moves, and the pass protocol rotates the packs. -/
def pickCore (cs : List (String × CardStatsEntry)) (cps : List (String × Rat))
    (s : DraftState) (card : Card) : List Player :=
  match s.players with
  | [] => []
  | human :: ais =>
    let currentPack := human.packs.getD (s.currentRound - 1) []
    let human1 := updatePlayerColors
      { human with
        draftedCards := human.draftedCards ++ [card]
        packs := human.packs.set (s.currentRound - 1)
          (currentPack.filter (fun c => ¬ (c.id == card.id))) }
    let ais1 := ais.map (fun ai => aiTurn cs cps s.currentRound ai)
    passPacks (human1 :: ais1) s.currentRound

/-- handlePick: snapshot the pre-pick state into the history (capped at the
last 5 entries), run the seat updates, then either advance the round (and
clear the history), complete the draft (and clear the history) or bump the
pick index.  On an empty seat list the source would fault reading seat 0; the
app never reaches that, and the embedding returns the state unchanged. -/
def handlePick (cs : List (String × CardStatsEntry)) (cps : List (String × Rat))
    (s : DraftState) (card : Card) : DraftState :=
  match s.players with
  | [] => s
  | _ :: _ =>
    let snapshot : Snapshot := { players := s.players, packIndex := s.currentPackIndex }
    let players2 := pickCore cs cps s card
    let allPacksEmpty :=
      players2.all (fun p => (p.packs.getD (s.currentRound - 1) []).length == 0)
    { players := players2
      currentRound :=
        if allPacksEmpty ∧ s.currentRound < 3 then s.currentRound + 1 else s.currentRound
      currentPackIndex :=
        if allPacksEmpty then (if s.currentRound < 3 then 0 else s.currentPackIndex)
        else s.currentPackIndex + 1
      draftComplete :=
        if allPacksEmpty ∧ ¬ s.currentRound < 3 then true else s.draftComplete
      draftHistory :=
        if allPacksEmpty then [] else takeLast 5 (s.draftHistory ++ [snapshot])
      suggestedCardId := none }

/-- handleUndo (and the identical Undo-Pick button handler): with a non-empty
history, restore the most recent snapshot and pop it; with an empty history,
do nothing. -/
def handleUndo (s : DraftState) : DraftState :=
  match s.draftHistory.getLast? with
  | none => s
  | some lastState =>
    { s with
      players := lastState.players
      currentPackIndex := lastState.packIndex
      draftHistory := s.draftHistory.dropLast }

/-- The state right after a successful (re-)initialisation of a draft: round
1, pick index 0, empty history, with whatever freshly generated seats the
initialisation produced. -/
def initState (players : List Player) : DraftState :=
  { players := players
    currentRound := 1
    currentPackIndex := 0
    draftComplete := false
    draftHistory := []
    suggestedCardId := none }

/-- The commands the presentation layer can issue into the draft core. -/
inductive DraftEvent where
  | pick (card : Card)
  | undoCmd
  | setChange (newPlayers : List Player)

/-- One step of the draft state machine.  A set change clears all draft state
and re-initialises from the freshly fetched pool. -/
def stepDraft (cs : List (String × CardStatsEntry)) (cps : List (String × Rat))
    (s : DraftState) : DraftEvent → DraftState
  | .pick card => handlePick cs cps s card
  | .undoCmd => handleUndo s
  | .setChange newPlayers => initState newPlayers

/-- States reachable from a draft initialisation by pick / undo / set-change
commands. -/
inductive ReachableDraft (cs : List (String × CardStatsEntry))
    (cps : List (String × Rat)) : DraftState → Prop
  | base (players : List Player) : ReachableDraft cs cps (initState players)
  | next (s : DraftState) (e : DraftEvent) :
      ReachableDraft cs cps s → ReachableDraft cs cps (stepDraft cs cps s e)

/-- addToDeck: append unless a card with that identifier is already there. -/
def addToDeck (deck : List Card) (card : Card) : List Card :=
  if deck.any (fun c => c.id == card.id) then deck else deck ++ [card]

/-- removeFromDeck: drop every card with the given identifier. -/
def removeFromDeck (deck : List Card) (card : Card) : List Card :=
  deck.filter (fun c => ¬ (c.id == card.id))

/-- sortDeck(criteria): stable sort by ascending mana value, or by the first
color symbol (missing colors sort as the empty string); any other criteria
leaves the order unchanged (the comparator returns 0 everywhere and the sort
is stable). -/
def sortDeck (criteria : String) (deck : List Card) : List Card :=
  if criteria == "cmc" then isort (fun a b => decide (a.cmc ≤ b.cmc)) deck
  else if criteria == "color" then
    isort (fun a b => decide ((a.colors.headD "") ≤ (b.colors.headD ""))) deck
  else deck

/-- Math.round for the non-negative ratios of suggestLands (round half up). -/
def jsRound (q : Rat) : Nat :=
  (⌊q + 1 / 2⌋).toNat

/-- The synthesized basic-land pseudo-card of suggestLands: its identifier is
basic-<symbol>-<i>; the JS object carries no rarity, cmc, power or toughness
fields, which the rest of the core reads through || 0 style defaults. -/
def mkBasic (sym landName : String) (i : Nat) : Card :=
  { id := "basic-" ++ sym ++ "-" ++ toString i
    name := landName
    rarity := ""
    cmc := 0
    typeLine := "Basic Land"
    colors := [sym]
    power := 0
    toughness := 0 }

/-- totalColors of suggestLands: the sum of the five symbol counts, replaced
by 1 when zero (the || 1 guard against dividing by zero). -/
def totalColorCount (deck : List Card) : Nat :=
  let t := countColor deck "W" + countColor deck "U" + countColor deck "B" +
    countColor deck "R" + countColor deck "G"
  if t = 0 then 1 else t

/-- The run of lands suggestLands synthesizes for one color: the rounded
proportional share of the 17 nominal land slots. -/
def landsForColor (deck : List Card) (sym landName : String) : List Card :=
  (List.range (jsRound ((countColor deck sym : Rat) / (totalColorCount deck : Rat) * 17))).map
    (fun i => mkBasic sym landName i)

/-- All lands suggestLands synthesizes, in the fixed W,U,B,R,G order. -/
def suggestLandsList (deck : List Card) : List Card :=
  landsForColor deck "W" "Plains" ++ landsForColor deck "U" "Island" ++
    landsForColor deck "B" "Swamp" ++ landsForColor deck "R" "Mountain" ++
    landsForColor deck "G" "Forest"

/-- suggestLands: append the synthesized lands to the built deck. -/
def suggestLandsDeck (deck : List Card) : List Card :=
  deck ++ suggestLandsList deck

/-- The built-deck identifier-uniqueness invariant. -/
def nodupIds (deck : List Card) : Prop :=
  (deck.map (fun c => c.id)).Nodup

instance (deck : List Card) : Decidable (nodupIds deck) := by
  unfold nodupIds; infer_instance

theorem insertLe_perm {α : Type} (le : α → α → Bool) (x : α) (l : List α) :
    List.Perm (insertLe le x l) (x :: l) := by
  induction l with
  | nil => simp [insertLe]
  | cons y ys ih =>
    simp only [insertLe]
    split
    · exact List.Perm.trans (List.Perm.cons y ih) (List.Perm.swap x y ys)
    · exact List.Perm.refl _

theorem isort_aux_perm {α : Type} (le : α → α → Bool) :
    ∀ (l acc : List α),
      List.Perm (l.foldl (fun a x => insertLe le x a) acc) (acc ++ l)
  | [], acc => by simp
  | x :: xs, acc => by
    simp only [List.foldl_cons]
    refine (isort_aux_perm le xs (insertLe le x acc)).trans ?_
    refine List.Perm.trans ?_ List.perm_middle.symm
    exact (insertLe_perm le x acc).append_right xs

/-- The stable sort is a permutation of its input. -/
theorem isort_perm {α : Type} (le : α → α → Bool) (l : List α) :
    List.Perm (isort le l) l := by
  simpa [isort] using isort_aux_perm le l []

theorem takeLast_length_le {α : Type} (n : Nat) (l : List α) :
    (takeLast n l).length ≤ n := by
  simp only [takeLast, List.length_drop]
  omega

theorem getLast?_takeLast_concat {α : Type} (n : Nat) (hn : 0 < n)
    (l : List α) (a : α) : (takeLast n (l ++ [a])).getLast? = some a := by
  unfold takeLast
  have hle : (l ++ [a]).length - n ≤ l.length := by
    simp only [List.length_append, List.length_cons, List.length_nil]
    omega
  rw [List.drop_append_of_le_length hle]
  exact List.getLast?_concat _

theorem mapWithIndex_get? {α β : Type} (f : Nat → α → β) :
    ∀ (l : List α) (k i : Nat),
      (mapWithIndex f k l).get? i = (l.get? i).map (f (k + i))
  | [], _, _ => by simp [mapWithIndex]
  | a :: _, k, 0 => by simp [mapWithIndex]
  | _ :: as, k, i + 1 => by
    simp only [mapWithIndex, List.get?_cons_succ]
    rw [mapWithIndex_get? f as (k + 1) i]
    have : k + 1 + i = k + (i + 1) := by omega
    rw [this]

theorem trimLands_of_le (pack : List Card)
    (h : (pack.filter (fun c => basicLand c)).length ≤ 1) :
    trimLands pack = pack := by
  unfold trimLands
  rw [if_neg]
  omega

theorem pickUniform_eq_some (l : List Card) (i : Nat) (h : l ≠ []) :
    ∃ c, pickUniform l i = some c ∧ c ∈ l := by
  unfold pickUniform
  have hlen : l.length ≠ 0 := by simpa using h
  rw [if_neg hlen]
  have hlt : i % l.length < l.length := Nat.mod_lt _ (Nat.pos_of_ne_zero hlen)
  exact ⟨l.get ⟨_, hlt⟩, List.get?_eq_get hlt, List.get_mem ..⟩

theorem jsRound_eq (q : Rat) (n : Nat) (h1 : (n : Rat) ≤ q + 1 / 2)
    (h2 : q + 1 / 2 < (n : Rat) + 1) : jsRound q = n := by
  unfold jsRound
  have hfl : ⌊q + 1 / 2⌋ = (n : Int) := by
    rw [Int.floor_eq_iff]
    constructor
    · exact_mod_cast h1
    · push_cast
      exact h2
  rw [hfl]
  simp

theorem jsRound_le_17 (q : Rat) (h : q ≤ 17) : jsRound q ≤ 17 := by
  unfold jsRound
  have h1 : ⌊q + 1 / 2⌋ ≤ ⌊(35 : Rat) / 2⌋ := Int.floor_le_floor (by linarith)
  have h2 : (⌊(35 : Rat) / 2⌋ : Int) = 17 := by
    rw [Int.floor_eq_iff]
    norm_num
  omega

/-- A color with no presence in the deck gets no suggested lands. -/
theorem landsForColor_of_count_zero (deck : List Card) (sym landName : String)
    (h : countColor deck sym = 0) : landsForColor deck sym landName = [] := by
  unfold landsForColor
  have hq : ((countColor deck sym : Rat) / (totalColorCount deck : Rat) * 17) = 0 := by
    rw [h]
    simp
  rw [hq, jsRound_eq 0 0 (by norm_num) (by norm_num)]
  simp

/-- A color carrying the whole color count gets the full 17 suggested lands. -/
theorem landsForColor_of_count_total (deck : List Card) (sym landName : String)
    (h : totalColorCount deck = countColor deck sym) (h0 : countColor deck sym ≠ 0) :
    landsForColor deck sym landName = (List.range 17).map (mkBasic sym landName) := by
  unfold landsForColor
  have hq : ((countColor deck sym : Rat) / (totalColorCount deck : Rat) * 17) = 17 := by
    rw [h, div_self (by exact_mod_cast h0), one_mul]
  rw [hq, jsRound_eq 17 17 (by norm_num) (by norm_num)]

/-- A seat with a prior affinity and no drafted cards, exhibiting the dead
affinity fallback of updatePlayerColors. -/
def c4seat : Player :=
  { id := "human", colors := ["R"], draftedCards := [], sideboard := [], packs := [] }

/-- A mono-black creature. -/
def c4monoBlackCard : Card :=
  { id := "b1"
    name := "MonoBlack"
    rarity := "common"
    cmc := 0
    typeLine := "Creature"
    colors := ["B"]
    power := 0
    toughness := 0 }

/-- A seat that has drafted exactly one mono-black card. -/
def c4seatB : Player :=
  { id := "h2", colors := [], draftedCards := [c4monoBlackCard], sideboard := [], packs := [] }

/-- Claim C4 (code side, at the failing input): updatePlayerColors never keeps
the prior affinity — the sorted color list always has exactly two entries, so
the fallback branch of the source is dead.  A seat with affinity R and no
drafted cards comes out with affinity W,U (the first two symbols in entry
order, all counts being zero and the sort stable), and a seat holding a single
mono-black card comes out with affinity B,W — including the symbol W that no
drafted card contributes.  The claim (and the repository's own comments and
utils tests, which expect R,G kept and a plain B respectively) say the prior
affinity is kept and only occurring symbols appear. -/
theorem C4_code_divergence :
    (updatePlayerColors c4seat).colors = ["W", "U"] ∧
      (updatePlayerColors c4seatB).colors = ["B", "W"] := by
  decide

/-- A card with a non-empty colors field and no statistics entry. -/
def c5card : Card :=
  { id := "c5"
    name := "NoStats"
    rarity := "common"
    cmc := 2
    typeLine := "Creature"
    colors := ["W"]
    power := 0
    toughness := 0 }

/-- Claim C5 (code side, at the failing input): for a card with no statistics
entry, calculateCardScore computes its color bonus from
(stats.color || '').split('') — the empty list — and therefore awards the
flat +3 colorless bonus, never consulting the card's own colors field: the
total is fallback 13 plus 3 = 16.  Computing the bonus from the card's own
color identity W against affinity W, as the claim states, yields 8
(5 on-color plus 3 all-matching), i.e. a total of 21. -/
theorem C5_code_divergence :
    calculateCardScore [] [] c5card ["W"] = 16 ∧
      fallbackStatsScore c5card = 13 ∧
      colorScoreOf c5card.colors ["W"] = 8 := by
  have hfb : fallbackStatsScore c5card =
      3 + max (10 - 2 : Rat) 0 + (((0 + 0 : Int) : Rat) / 2 + 2) := rfl
  have hfb13 : fallbackStatsScore c5card = 13 := by
    rw [hfb]
    norm_num
  have hmain : calculateCardScore [] [] c5card ["W"] =
      fallbackStatsScore c5card + colorScoreOf [] ["W"] +
        getColorPairBonus [] ["W"] [] := rfl
  have hc3 : colorScoreOf [] ["W"] = 3 := rfl
  have hp0 : getColorPairBonus [] ["W"] [] = 0 := rfl
  have hcsW : colorScoreOf c5card.colors ["W"] =
      (if (5 : Rat) = 5 then (5 : Rat) else 0) + 0 + 3 := by
    show colorScoreOf ["W"] ["W"] = _
    simp [colorScoreOf, List.sum_cons]
  refine ⟨?_, hfb13, ?_⟩
  · rw [hmain, hc3, hp0, hfb13]
    norm_num
  · rw [hcsW]
    norm_num

/-- A card named ZeroStats with a non-empty colors field. -/
def c10card : Card :=
  { id := "c10"
    name := "ZeroStats"
    rarity := "common"
    cmc := 2
    typeLine := "Creature"
    colors := ["W"]
    power := 0
    toughness := 0 }

/-- A statistics entry recording a zero games-in-hand win rate but a non-empty
reported color identity (loadCardStats produces such rows whenever the GP WR
column is missing but the Color column is present). -/
def c10entry : CardStatsEntry :=
  { gihwr := 0, ohwr := 0, gdwr := 0, color := "W" }

/-- The statistics table holding only the zero-win-rate entry. -/
def c10stats : List (String × CardStatsEntry) := [("ZeroStats", c10entry)]

/-- Claim C10 is false as stated: a card whose statistics entry records a zero
games-in-hand win rate is indeed scored through the fallback branch, but not
"exactly as if no statistics entry existed" — the entry's reported color
identity W still feeds the color bonus (8 against affinity W), while with no
entry at all the color info is empty and the colorless +3 applies: 21 versus
16 at this input. -/
theorem C10_counterexample :
    calculateCardScore c10stats [] c10card ["W"] = 21 ∧
      calculateCardScore [] [] c10card ["W"] = 16 ∧
      calculateCardScore c10stats [] c10card ["W"] ≠
        calculateCardScore [] [] c10card ["W"] := by
  have hfb : fallbackStatsScore c10card =
      3 + max (10 - 2 : Rat) 0 + (((0 + 0 : Int) : Rat) / 2 + 2) := rfl
  have hfb13 : fallbackStatsScore c10card = 13 := by
    rw [hfb]
    norm_num
  have hmainS : calculateCardScore c10stats [] c10card ["W"] =
      fallbackStatsScore c10card + colorScoreOf ["W"] ["W"] +
        getColorPairBonus ["W"] ["W"] [] := rfl
  have hmainN : calculateCardScore [] [] c10card ["W"] =
      fallbackStatsScore c10card + colorScoreOf [] ["W"] +
        getColorPairBonus [] ["W"] [] := rfl
  have hc3 : colorScoreOf [] ["W"] = 3 := rfl
  have hp0 : getColorPairBonus [] ["W"] [] = 0 := rfl
  have hpW : getColorPairBonus ["W"] ["W"] [] = 0 := rfl
  have hcsW : colorScoreOf ["W"] ["W"] = 8 := by
    simp [colorScoreOf, List.sum_cons]
    norm_num
  refine ⟨?_, ?_, ?_⟩
  · rw [hmainS, hcsW, hpW, hfb13]
    norm_num
  · rw [hmainN, hc3, hp0, hfb13]
    norm_num
  · rw [hmainS, hmainN, hcsW, hpW, hc3, hp0, hfb13]
    norm_num

/-- Claim C10, amended: when the statistics entry for a card's name records a
zero games-in-hand win rate, calculateCardScore uses the fallback statsScore
(rarity + mana value + type bonus) and combines without the 1.5 color
multiplier — branch selection is by the win rate being non-zero, not by key
presence — but the color component is computed from the entry's reported
color identity, so the total agrees with the no-entry score exactly when that
reported color string is empty. -/
theorem C10_amended_theorem (cs cs0 : List (String × CardStatsEntry))
    (cps : List (String × Rat)) (card : Card) (ai : List String)
    (s : CardStatsEntry) (h1 : lookupStats cs card.name = some s)
    (h2 : s.gihwr = 0) (h0 : lookupStats cs0 card.name = none)
    (hc : s.color = "") :
    calculateCardScore cs cps card ai =
        fallbackStatsScore card + colorScoreOf (stringSymbols s.color) ai +
          getColorPairBonus (stringSymbols s.color) ai cps ∧
      calculateCardScore cs cps card ai = calculateCardScore cs0 cps card ai := by
  have hzero : ¬ s.gihwr ≠ 0 := by simp [h2]
  have hA : calculateCardScore cs cps card ai =
      fallbackStatsScore card + colorScoreOf (stringSymbols s.color) ai +
        getColorPairBonus (stringSymbols s.color) ai cps := by
    unfold calculateCardScore
    rw [h1]
    simp only [statsColorOf, if_neg hzero]
  have hB : calculateCardScore cs0 cps card ai =
      fallbackStatsScore card + colorScoreOf (stringSymbols "") ai +
        getColorPairBonus (stringSymbols "") ai cps := by
    unfold calculateCardScore
    rw [h0]
    simp only [statsColorOf]
  refine ⟨hA, ?_⟩
  rw [hA, hB, hc]

/-- Witness for C10_amended_theorem at a concrete zero-win-rate entry with an
empty reported color string. -/
theorem C10_amended_witness :
    calculateCardScore [("ZeroStats", { gihwr := 0, ohwr := 0, gdwr := 0, color := "" })]
        [] c10card ["W"] =
        fallbackStatsScore c10card + colorScoreOf (stringSymbols "") ["W"] +
          getColorPairBonus (stringSymbols "") ["W"] [] ∧
      calculateCardScore [("ZeroStats", { gihwr := 0, ohwr := 0, gdwr := 0, color := "" })]
        [] c10card ["W"] = calculateCardScore [] [] c10card ["W"] :=
  C10_amended_theorem [("ZeroStats", { gihwr := 0, ohwr := 0, gdwr := 0, color := "" })]
    [] [] c10card ["W"] { gihwr := 0, ohwr := 0, gdwr := 0, color := "" } rfl rfl rfl rfl

/-- The symbol-to-basic-land-name table of suggestLands. -/
def colorNamePairs : List (String × String) :=
  [("W", "Plains"), ("U", "Island"), ("B", "Swamp"), ("R", "Mountain"), ("G", "Forest")]

/-- A mono-white card and a mono-blue card for the land-count computations. -/
def c9white : Card :=
  { id := "w9"
    name := "CW"
    rarity := "common"
    cmc := 0
    typeLine := "Creature"
    colors := ["W"]
    power := 0
    toughness := 0 }

def c9blue : Card :=
  { id := "u9"
    name := "CU"
    rarity := "common"
    cmc := 0
    typeLine := "Creature"
    colors := ["U"]
    power := 0
    toughness := 0 }

/-- The two-color deck on which the rounded shares do not add up to 17. -/
def c9deck : List Card := [c9white, c9blue]

/-- Claim C9 is false as stated: on the non-degenerate deck of one white and
one blue card each share is round(8.5) = 9, so suggestLands appends 18 lands,
not 17 — per-color rounding is not normalised to the nominal total. -/
theorem C9_counterexample :
    (suggestLandsList c9deck).length = 18 ∧
      (suggestLandsList c9deck).length ≠ 17 := by
  have hW : countColor c9deck "W" = 1 := by decide
  have hU : countColor c9deck "U" = 1 := by decide
  have hB : countColor c9deck "B" = 0 := by decide
  have hR : countColor c9deck "R" = 0 := by decide
  have hG : countColor c9deck "G" = 0 := by decide
  have htot : totalColorCount c9deck = 2 := by
    simp [totalColorCount, hW, hU, hB, hR, hG]
  have hhalf : ((1 : Nat) : Rat) / ((2 : Nat) : Rat) * 17 = 17 / 2 := by norm_num
  have h9W : (landsForColor c9deck "W" "Plains").length = 9 := by
    unfold landsForColor
    rw [hW, htot, hhalf, jsRound_eq (17 / 2) 9 (by norm_num) (by norm_num)]
    simp
  have h9U : (landsForColor c9deck "U" "Island").length = 9 := by
    unfold landsForColor
    rw [hU, htot, hhalf, jsRound_eq (17 / 2) 9 (by norm_num) (by norm_num)]
    simp
  have hB0 := landsForColor_of_count_zero c9deck "B" "Swamp" hB
  have hR0 := landsForColor_of_count_zero c9deck "R" "Mountain" hR
  have hG0 := landsForColor_of_count_zero c9deck "G" "Forest" hG
  constructor
  · simp [suggestLandsList, h9W, h9U, hB0, hR0, hG0]
  · simp [suggestLandsList, h9W, h9U, hB0, hR0, hG0]

/-- Claim C9, amended: colors with zero presence in the deck receive zero
suggested lands, and on a mono-color deck (all colored symbols of one single
color, at least one of them) suggestLands synthesizes exactly the 17 basic
lands of that color — but for multi-color decks the per-color rounded shares
are not normalised, so the total need not be 17. -/
theorem C9_amended_theorem (deck deck2 : List Card) (sym landName sym2 landName2 : String)
    (hmem : (sym, landName) ∈ colorNamePairs)
    (hz : ∀ p ∈ colorNamePairs, p.1 ≠ sym → countColor deck p.1 = 0)
    (hpos : countColor deck sym ≠ 0)
    (hz2 : countColor deck2 sym2 = 0) :
    suggestLandsList deck = (List.range 17).map (mkBasic sym landName) ∧
      landsForColor deck2 sym2 landName2 = [] := by
  refine ⟨?_, landsForColor_of_count_zero deck2 sym2 landName2 hz2⟩
  simp only [colorNamePairs, List.mem_cons, List.not_mem_nil, or_false,
    Prod.mk.injEq] at hmem
  rcases hmem with ⟨h1, h2⟩ | ⟨h1, h2⟩ | ⟨h1, h2⟩ | ⟨h1, h2⟩ | ⟨h1, h2⟩ <;>
      subst h1 <;> subst h2
  · have zU := hz ("U", "Island") (by simp [colorNamePairs]) (by decide)
    have zB := hz ("B", "Swamp") (by simp [colorNamePairs]) (by decide)
    have zR := hz ("R", "Mountain") (by simp [colorNamePairs]) (by decide)
    have zG := hz ("G", "Forest") (by simp [colorNamePairs]) (by decide)
    have htot : totalColorCount deck = countColor deck "W" := by
      simp [totalColorCount, zU, zB, zR, zG, hpos]
    rw [suggestLandsList, landsForColor_of_count_total deck _ _ htot hpos,
      landsForColor_of_count_zero deck _ _ zU, landsForColor_of_count_zero deck _ _ zB,
      landsForColor_of_count_zero deck _ _ zR, landsForColor_of_count_zero deck _ _ zG]
    simp
  · have zW := hz ("W", "Plains") (by simp [colorNamePairs]) (by decide)
    have zB := hz ("B", "Swamp") (by simp [colorNamePairs]) (by decide)
    have zR := hz ("R", "Mountain") (by simp [colorNamePairs]) (by decide)
    have zG := hz ("G", "Forest") (by simp [colorNamePairs]) (by decide)
    have htot : totalColorCount deck = countColor deck "U" := by
      simp [totalColorCount, zW, zB, zR, zG, hpos]
    rw [suggestLandsList, landsForColor_of_count_total deck _ _ htot hpos,
      landsForColor_of_count_zero deck _ _ zW, landsForColor_of_count_zero deck _ _ zB,
      landsForColor_of_count_zero deck _ _ zR, landsForColor_of_count_zero deck _ _ zG]
    simp
  · have zW := hz ("W", "Plains") (by simp [colorNamePairs]) (by decide)
    have zU := hz ("U", "Island") (by simp [colorNamePairs]) (by decide)
    have zR := hz ("R", "Mountain") (by simp [colorNamePairs]) (by decide)
    have zG := hz ("G", "Forest") (by simp [colorNamePairs]) (by decide)
    have htot : totalColorCount deck = countColor deck "B" := by
      simp [totalColorCount, zW, zU, zR, zG, hpos]
    rw [suggestLandsList, landsForColor_of_count_total deck _ _ htot hpos,
      landsForColor_of_count_zero deck _ _ zW, landsForColor_of_count_zero deck _ _ zU,
      landsForColor_of_count_zero deck _ _ zR, landsForColor_of_count_zero deck _ _ zG]
    simp
  · have zW := hz ("W", "Plains") (by simp [colorNamePairs]) (by decide)
    have zU := hz ("U", "Island") (by simp [colorNamePairs]) (by decide)
    have zB := hz ("B", "Swamp") (by simp [colorNamePairs]) (by decide)
    have zG := hz ("G", "Forest") (by simp [colorNamePairs]) (by decide)
    have htot : totalColorCount deck = countColor deck "R" := by
      simp [totalColorCount, zW, zU, zB, zG, hpos]
    rw [suggestLandsList, landsForColor_of_count_total deck _ _ htot hpos,
      landsForColor_of_count_zero deck _ _ zW, landsForColor_of_count_zero deck _ _ zU,
      landsForColor_of_count_zero deck _ _ zB, landsForColor_of_count_zero deck _ _ zG]
    simp
  · have zW := hz ("W", "Plains") (by simp [colorNamePairs]) (by decide)
    have zU := hz ("U", "Island") (by simp [colorNamePairs]) (by decide)
    have zB := hz ("B", "Swamp") (by simp [colorNamePairs]) (by decide)
    have zR := hz ("R", "Mountain") (by simp [colorNamePairs]) (by decide)
    have htot : totalColorCount deck = countColor deck "G" := by
      simp [totalColorCount, zW, zU, zB, zR, hpos]
    rw [suggestLandsList, landsForColor_of_count_total deck _ _ htot hpos,
      landsForColor_of_count_zero deck _ _ zW, landsForColor_of_count_zero deck _ _ zU,
      landsForColor_of_count_zero deck _ _ zB, landsForColor_of_count_zero deck _ _ zR]
    simp

/-- Witness for C9_amended_theorem on the mono-white one-card deck. -/
theorem C9_amended_witness :
    suggestLandsList [c9white] = (List.range 17).map (mkBasic "W" "Plains") ∧
      landsForColor [c9white] "U" "Island" = [] :=
  C9_amended_theorem [c9white] [c9white] "W" "Plains" "U" "Island"
    (by decide) (by decide) (by decide) (by decide)

theorem updatePlayerColors_draftedCards (p : Player) :
    (updatePlayerColors p).draftedCards = p.draftedCards := rfl

/-- handlePick leaves its seat updates in the players field on every branch. -/
theorem handlePick_players (cs : List (String × CardStatsEntry))
    (cps : List (String × Rat)) (s : DraftState) (card : Card) (hu : Player)
    (ais : List Player) (hp : s.players = hu :: ais) :
    (handlePick cs cps s card).players = pickCore cs cps s card := by
  obtain ⟨pl, cr, cpi, dc, dh, sg⟩ := s
  simp only at hp
  subst hp
  unfold handlePick
  split
  · rename_i heq
    simp at heq
  · rfl

/-- The human seat keeps the head position through pickCore, with the picked
card appended to its drafted cards. -/
theorem pickCore_head_draftedCards (cs : List (String × CardStatsEntry))
    (cps : List (String × Rat)) (s : DraftState) (card : Card) (hu : Player)
    (ais : List Player) (hp : s.players = hu :: ais) :
    ((pickCore cs cps s card).headD (default : Player)).draftedCards =
      hu.draftedCards ++ [card] := by
  obtain ⟨pl, cr, cpi, dc, dh, sg⟩ := s
  simp only at hp
  subst hp
  unfold pickCore passPacks
  simp only [List.map_cons, mapWithIndex, List.headD_cons]
  exact updatePlayerColors_draftedCards _

/-- The one-seat table with an empty round-1 pack and empty undo history. -/
def c7human : Player :=
  { id := "human", colors := [], draftedCards := [], sideboard := [], packs := [[], [], []] }

def c7state : DraftState :=
  { players := [c7human]
    currentRound := 1
    currentPackIndex := 0
    draftComplete := false
    draftHistory := []
    suggestedCardId := none }

def c7card : Card :=
  { id := "x7"
    name := "X"
    rarity := "common"
    cmc := 0
    typeLine := "Creature"
    colors := []
    power := 0
    toughness := 0 }

/-- Claim C7 is false as stated: handlePick performs no emptiness check, so
invoking the pick command while the human seat's current-round pack is empty
is not a no-op — at this concrete state it appends the card to the human's
drafted cards and (all packs being empty) advances the round. -/
theorem C7_counterexample :
    (handlePick [] [] c7state c7card).currentRound = 2 ∧
      c7state.currentRound = 1 ∧
      ((handlePick [] [] c7state c7card).players.headD (default : Player)).draftedCards =
        [c7card] ∧
      (c7state.players.headD (default : Player)).draftedCards = [] := by
  decide

/-- Claim C7, amended: invoking undo with an empty undo history is a strict
no-op (the state is returned unchanged, nothing throws); but invoking the
pick command with an empty human pack is not a no-op — handlePick is only
guarded at the presentation layer, and when called it still appends the
picked card to the human seat's drafted cards. -/
theorem C7_amended_theorem (cs : List (String × CardStatsEntry))
    (cps : List (String × Rat)) (s s2 : DraftState) (card : Card) (hu : Player)
    (ais : List Player) (hempty : s.draftHistory = [])
    (hp : s2.players = hu :: ais)
    (hpack : hu.packs.getD (s2.currentRound - 1) [] = []) :
    handleUndo s = s ∧
      ((handlePick cs cps s2 card).players.headD (default : Player)).draftedCards =
        hu.draftedCards ++ [card] := by
  constructor
  · unfold handleUndo
    rw [hempty]
    rfl
  · rw [handlePick_players cs cps s2 card hu ais hp]
    exact pickCore_head_draftedCards cs cps s2 card hu ais hp

/-- Witness for C7_amended_theorem at the concrete empty-pack state. -/
theorem C7_amended_witness :
    handleUndo c7state = c7state ∧
      ((handlePick [] [] c7state c7card).players.headD (default : Player)).draftedCards =
        c7human.draftedCards ++ [c7card] :=
  C7_amended_theorem [] [] c7state c7state c7card c7human [] rfl rfl rfl

theorem getD_eq_get?_getD {α : Type} (l : List α) (i : Nat) (d : α) :
    l.getD i d = (l.get? i).getD d := by
  simp [List.getD_eq_getElem?_getD, List.get?_eq_getElem?]

/-- Claim C2, amended: after one pass, seat i holds the pack previously held
by seat (i+1) mod 8 in rounds 1 and 3 and by seat (i-1) mod 8 in round 2 —
the opposite assignment to the claim — provided every pack carries at most
one basic land so the defensive trim is the identity. -/
theorem C2_amended_theorem (players : List Player) (r i : Nat)
    (h8 : players.length = 8) (hr : r = 1 ∨ r = 2 ∨ r = 3)
    (hland : ∀ pl ∈ players,
      ((pl.packs.getD (r - 1) []).filter (fun c => basicLand c)).length ≤ 1)
    (hi : i < 8) :
    (passPacks players r).get? i =
      (players.get? i).map (fun p =>
        { p with packs := (p.packs.set (r - 1)
            (((players.get? ((i + (if r = 2 then 7 else 1)) % 8)).getD
                (default : Player)).packs.getD (r - 1) [])) }) := by
  have hi' : i < players.length := by omega
  obtain ⟨p, hpi⟩ : ∃ p, players.get? i = some p :=
    ⟨players.get ⟨i, hi'⟩, List.get?_eq_get hi'⟩
  have hnx : ∀ j, j < 8 → ∃ q, players.get? j = some q ∧ q ∈ players := by
    intro j hj
    have hj' : j < players.length := by omega
    exact ⟨players.get ⟨j, hj'⟩, List.get?_eq_get hj', List.get_mem ..⟩
  rcases hr with hr | hr | hr <;> subst hr
  · obtain ⟨q, hq, hqmem⟩ := hnx ((i + 1) % 8) (Nat.mod_lt _ (by norm_num))
    have htrim := trimLands_of_le _ (hland q hqmem)
    unfold passPacks
    rw [mapWithIndex_get?, hpi]
    simp only [Nat.zero_add, Option.map_some', h8]
    rw [getD_eq_get?_getD, List.get?_map]
    norm_num
    rw [List.get?_eq_getElem?] at hq
    rw [hq]
    simp only [Option.map_some', Option.getD_some]
    rw [getD_eq_get?_getD, List.get?_eq_getElem?] at htrim
    rw [htrim]
  · obtain ⟨q, hq, hqmem⟩ := hnx ((i + 7) % 8) (Nat.mod_lt _ (by norm_num))
    have htrim := trimLands_of_le _ (hland q hqmem)
    unfold passPacks
    rw [mapWithIndex_get?, hpi]
    simp only [Nat.zero_add, Option.map_some', h8]
    rw [getD_eq_get?_getD, List.get?_map]
    norm_num
    rw [List.get?_eq_getElem?] at hq
    rw [hq]
    simp only [Option.map_some', Option.getD_some]
    rw [getD_eq_get?_getD, List.get?_eq_getElem?] at htrim
    rw [htrim]
  · obtain ⟨q, hq, hqmem⟩ := hnx ((i + 1) % 8) (Nat.mod_lt _ (by norm_num))
    have htrim := trimLands_of_le _ (hland q hqmem)
    unfold passPacks
    rw [mapWithIndex_get?, hpi]
    simp only [Nat.zero_add, Option.map_some', h8]
    rw [getD_eq_get?_getD, List.get?_map]
    norm_num
    rw [List.get?_eq_getElem?] at hq
    rw [hq]
    simp only [Option.map_some', Option.getD_some]
    rw [getD_eq_get?_getD, List.get?_eq_getElem?] at htrim
    rw [htrim]

/-- A one-card pack tagged by a seat label. -/
def c2pack (s : String) : List Card :=
  [{ id := s
     name := s
     rarity := "common"
     cmc := 0
     typeLine := "Creature"
     colors := []
     power := 0
     toughness := 0 }]

/-- A seat whose round-1 pack is its own tagged one-card pack. -/
def c2seat (s : String) : Player :=
  { id := s, colors := [], draftedCards := [], sideboard := [], packs := [c2pack s, [], []] }

/-- An 8-seat table with pairwise distinct round-1 packs. -/
def c2table : List Player :=
  [c2seat "s0", c2seat "s1", c2seat "s2", c2seat "s3",
   c2seat "s4", c2seat "s5", c2seat "s6", c2seat "s7"]

/-- Claim C2 is false as stated: in round 1 the source gives seat 0 the pack
previously held by seat 1 — packs travel toward lower indices — whereas the
claim says seat i receives the pack of seat (i-1) mod 8, i.e. seat 7's pack
for seat 0, which differs at this table of pairwise distinct packs. -/
theorem C2_counterexample :
    ((passPacks c2table 1).getD 0 (default : Player)).packs.getD 0 [] =
        (c2table.getD 1 (default : Player)).packs.getD 0 [] ∧
      ((passPacks c2table 1).getD 0 (default : Player)).packs.getD 0 [] ≠
        (c2table.getD 7 (default : Player)).packs.getD 0 [] := by
  decide

/-- Witness for C2_amended_theorem at seat 0 of the concrete table in
round 1. -/
theorem C2_amended_witness :
    (passPacks c2table 1).get? 0 =
      (c2table.get? 0).map (fun p =>
        { p with packs := (p.packs.set (1 - 1)
            (((c2table.get? ((0 + (if 1 = 2 then 7 else 1)) % 8)).getD
                (default : Player)).packs.getD (1 - 1) [])) }) :=
  C2_amended_theorem c2table 1 0 (by decide) (Or.inl rfl) (by decide) (by decide)

/-- With seats present and the post-pick packs not all empty, handlePick
stores the capped history with the pre-pick snapshot on top. -/
theorem handlePick_draftHistory_of_not_all_empty (cs : List (String × CardStatsEntry))
    (cps : List (String × Rat)) (s : DraftState) (card : Card) (hu : Player)
    (ais : List Player) (hp : s.players = hu :: ais)
    (hcont : (pickCore cs cps s card).all
      (fun p => (p.packs.getD (s.currentRound - 1) []).length == 0) = false) :
    (handlePick cs cps s card).draftHistory =
      takeLast 5 (s.draftHistory ++
        [{ players := s.players, packIndex := s.currentPackIndex }]) := by
  obtain ⟨pl, cr, cpi, dc, dh, sg⟩ := s
  simp only at hp
  subst hp
  simp only at hcont
  unfold handlePick
  simp only [hcont]
  rfl

/-- Claim C3, amended: provided the pick does not empty every seat's
current-round pack (i.e. does not advance the round or complete the draft,
which clears the history), pick followed by undo restores every seat's full
state and the pick index to their pre-pick values. -/
theorem C3_amended_theorem (cs : List (String × CardStatsEntry))
    (cps : List (String × Rat)) (s : DraftState) (card : Card) (hu : Player)
    (ais : List Player) (hp : s.players = hu :: ais)
    (hpack : 0 < (hu.packs.getD (s.currentRound - 1) []).length)
    (hcard : card ∈ hu.packs.getD (s.currentRound - 1) [])
    (hcont : (pickCore cs cps s card).all
      (fun p => (p.packs.getD (s.currentRound - 1) []).length == 0) = false) :
    (handleUndo (handlePick cs cps s card)).players = s.players ∧
      (handleUndo (handlePick cs cps s card)).currentPackIndex = s.currentPackIndex := by
  have hist := handlePick_draftHistory_of_not_all_empty cs cps s card hu ais hp hcont
  have hlast : (handlePick cs cps s card).draftHistory.getLast? =
      some { players := s.players, packIndex := s.currentPackIndex } := by
    rw [hist]
    exact getLast?_takeLast_concat 5 (by norm_num) _ _
  unfold handleUndo
  rw [hlast]
  exact ⟨rfl, rfl⟩

/-- The single-seat fixture for the undo round-trip: a two-card round-1
pack. -/
def c3cardA : Card :=
  { id := "a3"
    name := "A3"
    rarity := "common"
    cmc := 0
    typeLine := "Creature"
    colors := ["W"]
    power := 0
    toughness := 0 }

def c3cardB : Card :=
  { id := "b3"
    name := "B3"
    rarity := "common"
    cmc := 0
    typeLine := "Creature"
    colors := ["U"]
    power := 0
    toughness := 0 }

def c3human : Player :=
  { id := "human", colors := [], draftedCards := [], sideboard := [],
    packs := [[c3cardA, c3cardB], [], []] }

def c3state : DraftState :=
  { players := [c3human]
    currentRound := 1
    currentPackIndex := 0
    draftComplete := false
    draftHistory := []
    suggestedCardId := none }

/-- Witness for C3_amended_theorem: picking the first of two cards and
undoing restores the seat list and the pick index. -/
theorem C3_amended_witness :
    (handleUndo (handlePick [] [] c3state c3cardA)).players = c3state.players ∧
      (handleUndo (handlePick [] [] c3state c3cardA)).currentPackIndex =
        c3state.currentPackIndex :=
  C3_amended_theorem [] [] c3state c3cardA c3human [] rfl (by decide) (by decide) (by decide)

/-- The single-seat fixture whose only pack card is about to be picked: the
pick empties every pack, advances the round and clears the history. -/
def c3lastHuman : Player :=
  { id := "human", colors := [], draftedCards := [], sideboard := [],
    packs := [[c3cardA], [], []] }

def c3lastState : DraftState :=
  { players := [c3lastHuman]
    currentRound := 1
    currentPackIndex := 0
    draftComplete := false
    draftHistory := []
    suggestedCardId := none }

/-- Claim C3 is false as stated: when the pick empties every seat's
current-round pack the round advances and the undo history is cleared, so the
following undo is a no-op and the pre-pick state is not restored — here the
drafted cards keep the picked card and the round stays advanced. -/
theorem C3_counterexample :
    ¬ ((handleUndo (handlePick [] [] c3lastState c3cardA)).players =
        c3lastState.players ∧
      (handleUndo (handlePick [] [] c3lastState c3cardA)).currentPackIndex =
        c3lastState.currentPackIndex) ∧
      0 < ((c3lastState.players.headD (default : Player)).packs.getD
        (c3lastState.currentRound - 1) []).length := by
  decide

/-- One pick keeps the undo history within the 5-entry cap. -/
theorem handlePick_hist_le (cs : List (String × CardStatsEntry))
    (cps : List (String × Rat)) (s : DraftState) (card : Card)
    (h : s.draftHistory.length ≤ 5) :
    (handlePick cs cps s card).draftHistory.length ≤ 5 := by
  unfold handlePick
  split
  · exact h
  · dsimp only
    split
    · simp
    · exact takeLast_length_le 5 _

/-- A pick either clears the history (exactly when it advances the round or
completes the draft) or leaves round and completion flag unchanged. -/
theorem handlePick_clear_or_same (cs : List (String × CardStatsEntry))
    (cps : List (String × Rat)) (s : DraftState) (card : Card) :
    (handlePick cs cps s card).draftHistory = [] ∨
      ((handlePick cs cps s card).currentRound = s.currentRound ∧
        (handlePick cs cps s card).draftComplete = s.draftComplete) := by
  unfold handlePick
  split
  · right
    exact ⟨rfl, rfl⟩
  · dsimp only
    rename_i hu ais heq
    cases hb : (pickCore cs cps s card).all
        (fun p => (p.packs.getD (s.currentRound - 1) []).length == 0) with
    | true =>
      left
      simp [hb]
    | false =>
      right
      constructor <;> simp [hb]

/-- Every reachable state keeps the history within the cap. -/
theorem reachable_hist_le (cs : List (String × CardStatsEntry))
    (cps : List (String × Rat)) (s : DraftState) (h : ReachableDraft cs cps s) :
    s.draftHistory.length ≤ 5 := by
  induction h with
  | base players => simp [initState]
  | next s e hs ih =>
    cases e with
    | pick card => exact handlePick_hist_le cs cps s card ih
    | undoCmd =>
      show (handleUndo s).draftHistory.length ≤ 5
      unfold handleUndo
      split
      · exact ih
      · dsimp only
        rw [List.length_dropLast]
        omega
    | setChange newPlayers => simp [stepDraft, initState]

/-- A card for exercising the C6 state machine. -/
def c6card : Card :=
  { id := "c6"
    name := "C6"
    rarity := "common"
    cmc := 0
    typeLine := "Creature"
    colors := []
    power := 0
    toughness := 0 }

/-- Claim C6: at every reachable state the undo history holds at most 5
entries; a pick that changes the round or the completion flag leaves an empty
history (the disjunction below: after any pick the history is empty or the
round and completion flag are unchanged); and a set change empties the
history. -/
theorem C6_theorem (cs : List (String × CardStatsEntry))
    (cps : List (String × Rat)) (s : DraftState) (card : Card)
    (newPlayers : List Player) (h : ReachableDraft cs cps s) :
    s.draftHistory.length ≤ 5 ∧
      ((handlePick cs cps s card).draftHistory = [] ∨
        ((handlePick cs cps s card).currentRound = s.currentRound ∧
          (handlePick cs cps s card).draftComplete = s.draftComplete)) ∧
      (stepDraft cs cps s (.setChange newPlayers)).draftHistory = [] :=
  ⟨reachable_hist_le cs cps s h, handlePick_clear_or_same cs cps s card, rfl⟩

/-- Witness for C6_theorem at the freshly initialised empty table. -/
theorem C6_witness :
    (initState []).draftHistory.length ≤ 5 ∧
      ((handlePick [] [] (initState []) c6card).draftHistory = [] ∨
        ((handlePick [] [] (initState []) c6card).currentRound =
            (initState []).currentRound ∧
          (handlePick [] [] (initState []) c6card).draftComplete =
            (initState []).draftComplete)) ∧
      (stepDraft [] [] (initState []) (.setChange [])).draftHistory = [] :=
  C6_theorem [] [] (initState []) c6card [] (ReachableDraft.base [])

theorem listStarts_refl_append : ∀ (p q : List Char), listStarts p (p ++ q) = true
  | [], _ => rfl
  | c :: cs, q => by simp [listStarts, listStarts_refl_append cs q]

/-- Every synthesized land identifier starts with the characters basic-. -/
theorem mkBasic_id_starts (sym landName : String) (i : Nat) :
    listStarts "basic-".toList (mkBasic sym landName i).id.toList = true := by
  show listStarts "basic-".toList ("basic-" ++ sym ++ "-" ++ toString i).toList = true
  have hsplit : ("basic-" ++ sym ++ "-" ++ toString i).toList =
      "basic-".toList ++ (sym.toList ++ ("-".toList ++ (toString i).toList)) := by
    show ("basic-" ++ sym ++ "-" ++ toString i).data =
      "basic-".data ++ (sym.data ++ ("-".data ++ (toString i).data))
    simp [String.data_append, List.append_assoc]
  rw [hsplit]
  exact listStarts_refl_append _ _

theorem totalColorCount_pos (deck : List Card) : 0 < totalColorCount deck := by
  unfold totalColorCount
  dsimp only
  split <;> omega

theorem count_le_totalColorCount (deck : List Card) (sym : String)
    (h : countColor deck sym ≤
      countColor deck "W" + countColor deck "U" + countColor deck "B" +
        countColor deck "R" + countColor deck "G") :
    countColor deck sym ≤ totalColorCount deck := by
  unfold totalColorCount
  dsimp only
  split <;> omega

theorem jsRound_ratio_le_17 (a b : Nat) (hle : a ≤ b) (hb : 0 < b) :
    jsRound ((a : Rat) / (b : Rat) * 17) ≤ 17 := by
  apply jsRound_le_17
  have h1 : (a : Rat) / (b : Rat) ≤ 1 := by
    rw [div_le_one (by exact_mod_cast hb)]
    exact_mod_cast hle
  calc (a : Rat) / (b : Rat) * 17 ≤ 1 * 17 := by
        apply mul_le_mul_of_nonneg_right h1
        norm_num
    _ = 17 := by norm_num

/-- Each per-color run of suggested lands is an initial segment of the full
17-land run for that color. -/
theorem landsForColor_sublist (deck : List Card) (sym landName : String)
    (hle : countColor deck sym ≤ totalColorCount deck) :
    List.Sublist (landsForColor deck sym landName)
      ((List.range 17).map (mkBasic sym landName)) := by
  unfold landsForColor
  have hk : jsRound ((countColor deck sym : Rat) / (totalColorCount deck : Rat) * 17) ≤ 17 :=
    jsRound_ratio_le_17 _ _ hle (totalColorCount_pos deck)
  have hr : List.range (jsRound ((countColor deck sym : Rat) /
      (totalColorCount deck : Rat) * 17)) = (List.range 17).take
        (jsRound ((countColor deck sym : Rat) / (totalColorCount deck : Rat) * 17)) := by
    rw [List.take_range, Nat.min_eq_left hk]
  rw [hr, List.map_take]
  exact List.take_sublist _ _

/-- The full five-color complement of synthesized lands. -/
def masterLandList : List Card :=
  (List.range 17).map (mkBasic "W" "Plains") ++ (List.range 17).map (mkBasic "U" "Island") ++
    (List.range 17).map (mkBasic "B" "Swamp") ++ (List.range 17).map (mkBasic "R" "Mountain") ++
    (List.range 17).map (mkBasic "G" "Forest")

theorem masterLandList_nodupIds : nodupIds masterLandList := by decide

theorem suggestLandsList_sublist (deck : List Card) :
    List.Sublist (suggestLandsList deck) masterLandList := by
  unfold suggestLandsList masterLandList
  refine List.Sublist.append (List.Sublist.append (List.Sublist.append
    (List.Sublist.append (landsForColor_sublist deck "W" "Plains" ?_)
      (landsForColor_sublist deck "U" "Island" ?_))
      (landsForColor_sublist deck "B" "Swamp" ?_))
      (landsForColor_sublist deck "R" "Mountain" ?_))
      (landsForColor_sublist deck "G" "Forest" ?_) <;>
    (apply count_le_totalColorCount; omega)

/-- Every suggested land's identifier starts with basic-. -/
theorem mem_suggestLandsList_starts (deck : List Card) (c : Card)
    (h : c ∈ suggestLandsList deck) :
    listStarts "basic-".toList c.id.toList = true := by
  have hm : c ∈ masterLandList := (suggestLandsList_sublist deck).mem h
  simp only [masterLandList, List.mem_append, List.mem_map] at hm
  rcases hm with (((h1 | h2) | h3) | h4) | h5
  · obtain ⟨i, -, hi⟩ := h1
    rw [← hi]
    exact mkBasic_id_starts _ _ _
  · obtain ⟨i, -, hi⟩ := h2
    rw [← hi]
    exact mkBasic_id_starts _ _ _
  · obtain ⟨i, -, hi⟩ := h3
    rw [← hi]
    exact mkBasic_id_starts _ _ _
  · obtain ⟨i, -, hi⟩ := h4
    rw [← hi]
    exact mkBasic_id_starts _ _ _
  · obtain ⟨i, -, hi⟩ := h5
    rw [← hi]
    exact mkBasic_id_starts _ _ _

theorem nodupIds_addToDeck (deck : List Card) (card : Card) (h : nodupIds deck) :
    nodupIds (addToDeck deck card) := by
  unfold addToDeck
  split
  · exact h
  · rename_i hany
    unfold nodupIds
    rw [List.map_append]
    refine List.nodup_append.mpr ⟨h, List.nodup_singleton _, ?_⟩
    intro a ha hb
    simp only [List.map_cons, List.map_nil, List.mem_singleton] at hb
    subst hb
    rw [List.mem_map] at ha
    obtain ⟨c, hc, hcid⟩ := ha
    rw [Bool.not_eq_true, List.any_eq_false] at hany
    have := hany c hc
    simp [hcid] at this

theorem nodupIds_removeFromDeck (deck : List Card) (card : Card) (h : nodupIds deck) :
    nodupIds (removeFromDeck deck card) :=
  List.Nodup.sublist ((List.filter_sublist deck).map _) h

theorem nodupIds_sortDeck (crit : String) (deck : List Card) (h : nodupIds deck) :
    nodupIds (sortDeck crit deck) := by
  unfold nodupIds at h ⊢
  unfold sortDeck
  split
  · exact (((isort_perm _ deck).map (fun c => c.id)).nodup_iff).mpr h
  · split
    · exact (((isort_perm _ deck).map (fun c => c.id)).nodup_iff).mpr h
    · exact h

theorem nodupIds_suggestLandsDeck (deck : List Card) (hnd : nodupIds deck)
    (hbasic : ∀ c ∈ deck, listStarts "basic-".toList c.id.toList = false) :
    nodupIds (suggestLandsDeck deck) := by
  unfold suggestLandsDeck nodupIds
  rw [List.map_append]
  refine List.nodup_append.mpr ⟨hnd, ?_, ?_⟩
  · exact List.Nodup.sublist ((suggestLandsList_sublist deck).map _) masterLandList_nodupIds
  · intro a ha hb
    rw [List.mem_map] at ha hb
    obtain ⟨c, hc, hcid⟩ := ha
    obtain ⟨d, hd, hdid⟩ := hb
    have h1 := hbasic c hc
    have h2 := mem_suggestLandsList_starts deck d hd
    rw [hcid] at h1
    rw [hdid] at h2
    rw [h1] at h2
    exact Bool.false_ne_true h2

/-- A mono-white deck card with an ordinary identifier. -/
def c8card : Card :=
  { id := "x8"
    name := "X8"
    rarity := "common"
    cmc := 0
    typeLine := "Creature"
    colors := ["W"]
    power := 0
    toughness := 0 }

def c8card2 : Card :=
  { id := "y8"
    name := "Y8"
    rarity := "common"
    cmc := 2
    typeLine := "Instant"
    colors := ["U"]
    power := 0
    toughness := 0 }

def c8fresh : Card :=
  { id := "z8"
    name := "Z8"
    rarity := "uncommon"
    cmc := 3
    typeLine := "Sorcery"
    colors := ["B"]
    power := 0
    toughness := 0 }

/-- Claim C8 is false as stated: one suggestLands on the one-card white deck
keeps identifiers unique, but a second invocation appends a second copy of
every basic-W-i identifier, so uniqueness is not preserved by repeated
invocations of suggestLands. -/
theorem C8_counterexample :
    nodupIds (suggestLandsDeck [c8card]) ∧
      ¬ nodupIds (suggestLandsDeck (suggestLandsDeck [c8card])) := by
  have hW1 : countColor [c8card] "W" = 1 := by decide
  have hU1 : countColor [c8card] "U" = 0 := by decide
  have hB1 : countColor [c8card] "B" = 0 := by decide
  have hR1 : countColor [c8card] "R" = 0 := by decide
  have hG1 : countColor [c8card] "G" = 0 := by decide
  have htot1 : totalColorCount [c8card] = 1 := by
    simp [totalColorCount, hW1, hU1, hB1, hR1, hG1]
  have e1 : suggestLandsList [c8card] = (List.range 17).map (mkBasic "W" "Plains") := by
    unfold suggestLandsList
    rw [landsForColor_of_count_total [c8card] "W" "Plains" (by rw [htot1, hW1]) (by rw [hW1]; omega),
      landsForColor_of_count_zero [c8card] "U" "Island" hU1,
      landsForColor_of_count_zero [c8card] "B" "Swamp" hB1,
      landsForColor_of_count_zero [c8card] "R" "Mountain" hR1,
      landsForColor_of_count_zero [c8card] "G" "Forest" hG1]
    simp
  have d1 : suggestLandsDeck [c8card] =
      c8card :: (List.range 17).map (mkBasic "W" "Plains") := by
    unfold suggestLandsDeck
    rw [e1]
    rfl
  have hW2 : countColor (c8card :: (List.range 17).map (mkBasic "W" "Plains")) "W" = 18 := by
    decide
  have hU2 : countColor (c8card :: (List.range 17).map (mkBasic "W" "Plains")) "U" = 0 := by
    decide
  have hB2 : countColor (c8card :: (List.range 17).map (mkBasic "W" "Plains")) "B" = 0 := by
    decide
  have hR2 : countColor (c8card :: (List.range 17).map (mkBasic "W" "Plains")) "R" = 0 := by
    decide
  have hG2 : countColor (c8card :: (List.range 17).map (mkBasic "W" "Plains")) "G" = 0 := by
    decide
  have htot2 : totalColorCount (c8card :: (List.range 17).map (mkBasic "W" "Plains")) = 18 := by
    simp [totalColorCount, hW2, hU2, hB2, hR2, hG2]
  have e2 : suggestLandsList (c8card :: (List.range 17).map (mkBasic "W" "Plains")) =
      (List.range 17).map (mkBasic "W" "Plains") := by
    unfold suggestLandsList
    rw [landsForColor_of_count_total _ "W" "Plains" (by rw [htot2, hW2]) (by rw [hW2]; omega),
      landsForColor_of_count_zero _ "U" "Island" hU2,
      landsForColor_of_count_zero _ "B" "Swamp" hB2,
      landsForColor_of_count_zero _ "R" "Mountain" hR2,
      landsForColor_of_count_zero _ "G" "Forest" hG2]
    simp
  have d2 : suggestLandsDeck (c8card :: (List.range 17).map (mkBasic "W" "Plains")) =
      (c8card :: (List.range 17).map (mkBasic "W" "Plains")) ++
        (List.range 17).map (mkBasic "W" "Plains") := by
    unfold suggestLandsDeck
    rw [e2]
  constructor
  · exact nodupIds_suggestLandsDeck [c8card] (by decide) (by decide)
  · rw [d1, d2]
    decide

/-- Claim C8, amended: addToDeck of an already-present identifier leaves the
deck unchanged, and identifier uniqueness is preserved by addToDeck,
removeFromDeck, sortDeck and a single invocation of suggestLands on a deck
holding no synthesized-land identifiers; repeated invocations of suggestLands
can however duplicate the synthesized basic-<color>-<i> identifiers. -/
theorem C8_amended_theorem (deck : List Card) (card card2 : Card) (crit : String)
    (hnd : nodupIds deck)
    (hbasic : ∀ c ∈ deck, listStarts "basic-".toList c.id.toList = false)
    (hmem : card2.id ∈ deck.map (fun c => c.id)) :
    addToDeck deck card2 = deck ∧
      nodupIds (addToDeck deck card) ∧
      nodupIds (removeFromDeck deck card) ∧
      nodupIds (sortDeck crit deck) ∧
      nodupIds (suggestLandsDeck deck) := by
  refine ⟨?_, nodupIds_addToDeck deck card hnd, nodupIds_removeFromDeck deck card hnd,
    nodupIds_sortDeck crit deck hnd, nodupIds_suggestLandsDeck deck hnd hbasic⟩
  unfold addToDeck
  rw [if_pos]
  rw [List.any_eq_true]
  rw [List.mem_map] at hmem
  obtain ⟨c, hc, hcid⟩ := hmem
  exact ⟨c, hc, by simp [hcid]⟩

/-- Witness for C8_amended_theorem on a two-card deck. -/
theorem C8_amended_witness :
    addToDeck [c8card, c8card2] c8card = [c8card, c8card2] ∧
      nodupIds (addToDeck [c8card, c8card2] c8fresh) ∧
      nodupIds (removeFromDeck [c8card, c8card2] c8fresh) ∧
      nodupIds (sortDeck "cmc" [c8card, c8card2]) ∧
      nodupIds (suggestLandsDeck [c8card, c8card2]) :=
  C8_amended_theorem [c8card, c8card2] c8fresh c8card "cmc"
    (by decide) (by decide) (by decide)

theorem mem_raresOf (cards : List Card) (c : Card) (h : c ∈ raresOf cards) :
    c ∈ cards ∧ c.rarity = "rare" := by
  rw [raresOf, List.mem_filter] at h
  exact ⟨h.1, by simpa using h.2⟩

theorem mem_mythicsOf (cards : List Card) (c : Card) (h : c ∈ mythicsOf cards) :
    c ∈ cards ∧ c.rarity = "mythic" := by
  rw [mythicsOf, List.mem_filter] at h
  exact ⟨h.1, by simpa using h.2⟩

theorem mem_uncommonsOf (cards : List Card) (c : Card) (h : c ∈ uncommonsOf cards) :
    c ∈ cards ∧ c.rarity = "uncommon" := by
  rw [uncommonsOf, List.mem_filter] at h
  exact ⟨h.1, by simpa using h.2⟩

theorem mem_commonsOf (cards : List Card) (c : Card) (h : c ∈ commonsOf cards) :
    c ∈ cards ∧ c.rarity = "common" := by
  rw [commonsOf, List.mem_filter] at h
  exact ⟨h.1, by simpa using h.2⟩

theorem mem_landsOf (cards : List Card) (c : Card) (h : c ∈ landsOf cards) :
    c ∈ cards ∧ basicLand c = true := by
  rw [landsOf, List.mem_filter] at h
  exact h

theorem rareOrMythicOf_ne_nil (cards : List Card) (u : Bool)
    (h : raresOf cards ≠ []) : rareOrMythicOf cards u ≠ [] := by
  unfold rareOrMythicOf
  split
  · rename_i hc
    intro hnil
    rw [hnil] at hc
    simp at hc
  · exact h

theorem rareOrMythicOf_cases (cards : List Card) (u : Bool) :
    rareOrMythicOf cards u = mythicsOf cards ∨ rareOrMythicOf cards u = raresOf cards := by
  unfold rareOrMythicOf
  split
  · exact Or.inl rfl
  · exact Or.inr rfl

/-- With at least one rare in the pool, the rare slot is filled from the
mythic or the rare list. -/
theorem rareSlot_mem (cards : List Card) (r : PackRand) (hr : raresOf cards ≠ []) :
    ∃ rc, rareSlot cards r = some rc ∧ (rc ∈ mythicsOf cards ∨ rc ∈ raresOf cards) := by
  unfold rareSlot
  have hne := rareOrMythicOf_ne_nil cards r.useMythic hr
  rw [if_pos (by simpa using hne)]
  obtain ⟨c, hc, hcm⟩ := pickUniform_eq_some _ r.rareIdx hne
  refine ⟨c, hc, ?_⟩
  rcases rareOrMythicOf_cases cards r.useMythic with he | he
  · rw [he] at hcm
    exact Or.inl hcm
  · rw [he] at hcm
    exact Or.inr hcm

/-- With at least one basic land in the pool, the land slot is a basic land. -/
theorem landSlot_mem (cards : List Card) (r : PackRand) (hl : landsOf cards ≠ []) :
    ∃ lc, landSlot cards r = some lc ∧ lc ∈ landsOf cards := by
  unfold landSlot
  rw [if_pos (by simpa using hl)]
  obtain ⟨c, hc, hcm⟩ := pickUniform_eq_some _ r.landIdx hl
  exact ⟨c, hc, hcm⟩

/-- Claim C1, amended: over a pool with distinct identifiers, at least one
rare, three uncommons, ten non-land commons and one basic land, and in which
every basic land has rarity common, every accepted generatePack attempt
yields a 15-card pack with exactly 1 rare-or-mythic, 3 uncommons, 10 non-land
commons and 1 basic land, all identifiers distinct. -/
theorem C1_amended_theorem (cards : List Card) (r : PackRand) (pack : List Card)
    (hids : (cards.map (fun c => c.id)).Nodup)
    (hrare : 1 ≤ (raresOf cards).length)
    (hunc : 3 ≤ (uncommonsOf cards).length)
    (hcom : 10 ≤ (cards.filter (fun c => c.rarity == "common" && !(basicLand c))).length)
    (hland : 1 ≤ (landsOf cards).length)
    (hlandrar : ∀ c ∈ cards, basicLand c = true → c.rarity = "common")
    (hup : List.Perm r.uncommonShuffle (uncommonsOf cards))
    (hcp : List.Perm r.commonShuffle (commonsOf cards))
    (hgen : generatePackAttempt cards r = some pack) :
    pack.length = 15 ∧
      (pack.filter (fun c => c.rarity == "rare" || c.rarity == "mythic")).length = 1 ∧
      (pack.filter (fun c => c.rarity == "uncommon")).length = 3 ∧
      (pack.filter (fun c => c.rarity == "common" && !(basicLand c))).length = 10 ∧
      (pack.filter (fun c => basicLand c)).length = 1 ∧
      (pack.map (fun c => c.id)).Nodup := by
  unfold generatePackAttempt at hgen
  by_cases hOK : ((packSlots cards r).filter (fun c => basicLand c)).length = 1
  case neg =>
    rw [if_neg hOK] at hgen
    cases hgen
  case pos =>
  rw [if_pos hOK] at hgen
  have hpk : sortPack (packSlots cards r) = pack := Option.some.inj hgen
  have hperm : List.Perm pack (packSlots cards r) := by
    rw [← hpk]
    exact isort_perm _ _
  have hrne : raresOf cards ≠ [] := by
    intro h
    rw [h] at hrare
    simp at hrare
  have hlne : landsOf cards ≠ [] := by
    intro h
    rw [h] at hland
    simp at hland
  obtain ⟨rc, hrc, hrcmem⟩ := rareSlot_mem cards r hrne
  obtain ⟨lc, hlc, hlcmem⟩ := landSlot_mem cards r hlne
  have hrccards : rc ∈ cards := by
    rcases hrcmem with h | h
    · exact (mem_mythicsOf _ _ h).1
    · exact (mem_raresOf _ _ h).1
  have hrcrar : rc.rarity = "mythic" ∨ rc.rarity = "rare" := by
    rcases hrcmem with h | h
    · exact Or.inl (mem_mythicsOf _ _ h).2
    · exact Or.inr (mem_raresOf _ _ h).2
  have hrcbasic : basicLand rc = false := by
    by_contra hb
    rw [Bool.not_eq_false] at hb
    have hcm := hlandrar rc hrccards hb
    rcases hrcrar with h | h <;> rw [h] at hcm <;> exact absurd hcm (by decide)
  have hlccards : lc ∈ cards := (mem_landsOf _ _ hlcmem).1
  have hlcbasic : basicLand lc = true := (mem_landsOf _ _ hlcmem).2
  have hlcrar : lc.rarity = "common" := hlandrar lc hlccards hlcbasic
  have hUlen : (r.uncommonShuffle.take 3).length = 3 := by
    rw [List.length_take]
    have := hup.length_eq
    omega
  have hUmem : ∀ u ∈ r.uncommonShuffle.take 3, u ∈ cards ∧ u.rarity = "uncommon" := by
    intro u hu
    exact mem_uncommonsOf cards u (hup.mem_iff.mp (List.mem_of_mem_take hu))
  have hUnotbasic : ∀ u ∈ r.uncommonShuffle.take 3, basicLand u = false := by
    intro u hu
    by_contra hb
    rw [Bool.not_eq_false] at hb
    have h1 := hlandrar u (hUmem u hu).1 hb
    rw [(hUmem u hu).2] at h1
    exact absurd h1 (by decide)
  have hcnodup : cards.Nodup := List.Nodup.of_map _ hids
  have hUnodup : (r.uncommonShuffle.take 3).Nodup :=
    List.Nodup.sublist (List.take_sublist _ _) (hup.nodup_iff.mpr (hcnodup.filter _))
  have hclen10 : 10 ≤ (commonsOf cards).length := by
    have h1 : cards.countP (fun c => c.rarity == "common" && !(basicLand c)) ≤
        cards.countP (fun c => c.rarity == "common") := by
      apply List.countP_mono_left
      intro x _ hpx
      simp only [Bool.and_eq_true] at hpx
      exact hpx.1
    rw [List.countP_eq_length_filter, List.countP_eq_length_filter] at h1
    show 10 ≤ (cards.filter (fun c => c.rarity == "common")).length
    omega
  have hClen : (r.commonShuffle.take 10).length = 10 := by
    rw [List.length_take]
    have := hcp.length_eq
    omega
  have hCmem : ∀ c ∈ r.commonShuffle.take 10, c ∈ cards ∧ c.rarity = "common" := by
    intro c hc
    exact mem_commonsOf cards c (hcp.mem_iff.mp (List.mem_of_mem_take hc))
  have hCnodup : (r.commonShuffle.take 10).Nodup :=
    List.Nodup.sublist (List.take_sublist _ _) (hcp.nodup_iff.mpr (hcnodup.filter _))
  have hP : packSlots cards r =
      (([rc] ++ r.uncommonShuffle.take 3) ++ r.commonShuffle.take 10) ++ [lc] := by
    unfold packSlots
    rw [hrc, hlc]
    rfl
  rw [hP] at hOK hperm
  have hfrc : ([rc] : List Card).filter (fun c => basicLand c) = [] := by
    simp [hrcbasic]
  have hfU : (r.uncommonShuffle.take 3).filter (fun c => basicLand c) = [] :=
    List.filter_eq_nil.mpr (by
      intro u hu
      rw [hUnotbasic u hu]
      simp)
  have hflc : ([lc] : List Card).filter (fun c => basicLand c) = [lc] := by
    simp [hlcbasic]
  rw [List.filter_append, List.filter_append, List.filter_append,
    hfrc, hfU, hflc] at hOK
  simp only [List.nil_append, List.length_append, List.length_nil,
    List.length_cons] at hOK
  have hCbasic : ∀ c ∈ r.commonShuffle.take 10, basicLand c = false := by
    have hlen0 : ((r.commonShuffle.take 10).filter (fun c => basicLand c)).length = 0 := by
      omega
    have hnil := List.length_eq_zero.mp hlen0
    intro c hc
    by_contra hb
    rw [Bool.not_eq_false] at hb
    have hmemf : c ∈ (r.commonShuffle.take 10).filter (fun c => basicLand c) :=
      List.mem_filter.mpr ⟨hc, hb⟩
    rw [hnil] at hmemf
    exact absurd hmemf (List.not_mem_nil c)
  -- counting helpers per segment
  have crcRare : List.countP (fun c => c.rarity == "rare" || c.rarity == "mythic") [rc] = 1 := by
    rw [List.countP_cons, List.countP_nil, if_pos]
    rcases hrcrar with h | h <;> rw [h] <;> decide
  have cURare : List.countP (fun c => c.rarity == "rare" || c.rarity == "mythic")
      (r.uncommonShuffle.take 3) = 0 := by
    apply List.countP_eq_zero.mpr
    intro u hu
    rw [(hUmem u hu).2]
    decide
  have cCRare : List.countP (fun c => c.rarity == "rare" || c.rarity == "mythic")
      (r.commonShuffle.take 10) = 0 := by
    apply List.countP_eq_zero.mpr
    intro c hc
    rw [(hCmem c hc).2]
    decide
  have clcRare : List.countP (fun c => c.rarity == "rare" || c.rarity == "mythic") [lc] = 0 := by
    rw [List.countP_cons, List.countP_nil, if_neg]
    rw [hlcrar]
    decide
  have crcUnc : List.countP (fun c => c.rarity == "uncommon") [rc] = 0 := by
    rw [List.countP_cons, List.countP_nil, if_neg]
    rcases hrcrar with h | h <;> rw [h] <;> decide
  have cUUnc : List.countP (fun c => c.rarity == "uncommon") (r.uncommonShuffle.take 3) = 3 := by
    rw [List.countP_eq_length.mpr, hUlen]
    intro u hu
    rw [(hUmem u hu).2]
    decide
  have cCUnc : List.countP (fun c => c.rarity == "uncommon") (r.commonShuffle.take 10) = 0 := by
    apply List.countP_eq_zero.mpr
    intro c hc
    rw [(hCmem c hc).2]
    decide
  have clcUnc : List.countP (fun c => c.rarity == "uncommon") [lc] = 0 := by
    rw [List.countP_cons, List.countP_nil, if_neg]
    rw [hlcrar]
    decide
  have crcCom : List.countP (fun c => c.rarity == "common" && !(basicLand c)) [rc] = 0 := by
    rw [List.countP_cons, List.countP_nil, if_neg]
    rcases hrcrar with h | h <;> rw [Bool.and_eq_true] <;> rw [h] <;> intro hx <;>
      exact absurd hx.1 (by decide)
  have cUCom : List.countP (fun c => c.rarity == "common" && !(basicLand c))
      (r.uncommonShuffle.take 3) = 0 := by
    apply List.countP_eq_zero.mpr
    intro u hu
    rw [Bool.and_eq_true]
    rw [(hUmem u hu).2]
    intro hx
    exact absurd hx.1 (by decide)
  have cCCom : List.countP (fun c => c.rarity == "common" && !(basicLand c))
      (r.commonShuffle.take 10) = 10 := by
    rw [List.countP_eq_length.mpr, hClen]
    intro c hc
    rw [Bool.and_eq_true, (hCmem c hc).2, hCbasic c hc]
    constructor
    · decide
    · decide
  have clcCom : List.countP (fun c => c.rarity == "common" && !(basicLand c)) [lc] = 0 := by
    rw [List.countP_cons, List.countP_nil, if_neg]
    rw [Bool.and_eq_true, hlcbasic]
    intro hx
    exact absurd hx.2 (by decide)
  -- membership in the pool
  have hPmem : ∀ x ∈ (([rc] ++ r.uncommonShuffle.take 3) ++ r.commonShuffle.take 10) ++ [lc],
      x ∈ cards := by
    intro x hx
    rw [List.mem_append] at hx
    rcases hx with hx | hx
    · rw [List.mem_append] at hx
      rcases hx with hx | hx
      · rw [List.mem_append] at hx
        rcases hx with hx | hx
        · rw [List.mem_singleton] at hx
          rw [hx]
          exact hrccards
        · exact (hUmem x hx).1
      · exact (hCmem x hx).1
    · rw [List.mem_singleton] at hx
      rw [hx]
      exact hlccards
  -- pairwise distinctness of the slots
  have h1 : ([rc] ++ r.uncommonShuffle.take 3).Nodup := by
    refine List.nodup_append.mpr ⟨List.nodup_singleton rc, hUnodup, ?_⟩
    intro a ha hb
    rw [List.mem_singleton] at ha
    subst ha
    have hun := (hUmem a hb).2
    rcases hrcrar with h | h <;> rw [hun] at h <;> exact absurd h (by decide)
  have h2 : (([rc] ++ r.uncommonShuffle.take 3) ++ r.commonShuffle.take 10).Nodup := by
    refine List.nodup_append.mpr ⟨h1, hCnodup, ?_⟩
    intro a ha hb
    have hcom' := (hCmem a hb).2
    rw [List.mem_append] at ha
    rcases ha with ha | ha
    · rw [List.mem_singleton] at ha
      subst ha
      rcases hrcrar with h | h <;> rw [hcom'] at h <;> exact absurd h (by decide)
    · have hun := (hUmem a ha).2
      rw [hcom'] at hun
      exact absurd hun (by decide)
  have hPnodup : ((([rc] ++ r.uncommonShuffle.take 3) ++ r.commonShuffle.take 10) ++ [lc]).Nodup := by
    refine List.nodup_append.mpr ⟨h2, List.nodup_singleton lc, ?_⟩
    intro a ha hb
    rw [List.mem_singleton] at hb
    subst hb
    rw [List.mem_append] at ha
    rcases ha with ha | ha
    · rw [List.mem_append] at ha
      rcases ha with ha | ha
      · rw [List.mem_singleton] at ha
        rw [ha] at hlcbasic
        rw [hrcbasic] at hlcbasic
        exact absurd hlcbasic (by decide)
      · have := hUnotbasic a ha
        rw [this] at hlcbasic
        exact absurd hlcbasic (by decide)
    · have := hCbasic a ha
      rw [this] at hlcbasic
      exact absurd hlcbasic (by decide)
  have hPids : (((([rc] ++ r.uncommonShuffle.take 3) ++ r.commonShuffle.take 10) ++ [lc]).map
      (fun c => c.id)).Nodup :=
    List.Nodup.map_on
      (fun x hx y hy hxy => List.inj_on_of_nodup_map hids (hPmem x hx) (hPmem y hy) hxy)
      hPnodup
  -- assemble, transporting along the sort permutation
  refine ⟨?_, ?_, ?_, ?_, ?_, ?_⟩
  · rw [hperm.length_eq]
    simp only [List.length_append, List.length_cons, List.length_nil]
    omega
  · rw [← List.countP_eq_length_filter, hperm.countP_eq, List.countP_append,
      List.countP_append, List.countP_append, crcRare, cURare, cCRare, clcRare]
  · rw [← List.countP_eq_length_filter, hperm.countP_eq, List.countP_append,
      List.countP_append, List.countP_append, crcUnc, cUUnc, cCUnc, clcUnc]
  · rw [← List.countP_eq_length_filter, hperm.countP_eq, List.countP_append,
      List.countP_append, List.countP_append, crcCom, cUCom, cCCom, clcCom]
  · rw [← List.countP_eq_length_filter, hperm.countP_eq, List.countP_eq_length_filter]
    rw [List.filter_append, List.filter_append, List.filter_append, hfrc, hfU, hflc]
    simp only [List.nil_append, List.length_append, List.length_nil, List.length_cons]
    omega
  · exact ((hperm.map (fun c => c.id)).nodup_iff).mpr hPids

/-- A minimal pool card for the generatePack computations. -/
def c1mk (theId rar tl : String) : Card :=
  { id := theId
    name := theId
    rarity := rar
    cmc := 0
    typeLine := tl
    colors := []
    power := 0
    toughness := 0 }

/-- A pool meeting the claim's hypotheses in which the only basic land has
rarity rare (nothing in the claim excludes that). -/
def c1pool : List Card :=
  [c1mk "r1" "rare" "Creature",
   c1mk "u1" "uncommon" "Creature", c1mk "u2" "uncommon" "Creature",
   c1mk "u3" "uncommon" "Creature",
   c1mk "cc1" "common" "Creature", c1mk "cc2" "common" "Creature",
   c1mk "cc3" "common" "Creature", c1mk "cc4" "common" "Creature",
   c1mk "cc5" "common" "Creature", c1mk "cc6" "common" "Creature",
   c1mk "cc7" "common" "Creature", c1mk "cc8" "common" "Creature",
   c1mk "cc9" "common" "Creature", c1mk "cc10" "common" "Creature",
   c1mk "l1" "rare" "Basic Land - Plains"]

/-- Identity shuffles and first-index rolls for the counterexample run. -/
def c1rand : PackRand :=
  { useMythic := false
    rareIdx := 0
    rareFallbackIdx := 0
    uncommonShuffle := uncommonsOf c1pool
    commonShuffle := commonsOf c1pool
    landIdx := 0
    landFallbackIdx := 0 }

/-- The pack the counterexample run returns. -/
def c1cexPack : List Card :=
  [c1mk "r1" "rare" "Creature",
   c1mk "u1" "uncommon" "Creature", c1mk "u2" "uncommon" "Creature",
   c1mk "u3" "uncommon" "Creature",
   c1mk "cc1" "common" "Creature", c1mk "cc2" "common" "Creature",
   c1mk "cc3" "common" "Creature", c1mk "cc4" "common" "Creature",
   c1mk "cc5" "common" "Creature", c1mk "cc6" "common" "Creature",
   c1mk "cc7" "common" "Creature", c1mk "cc8" "common" "Creature",
   c1mk "cc9" "common" "Creature", c1mk "cc10" "common" "Creature",
   c1mk "l1" "rare" "Basic Land - Plains"]

/-- Claim C1 is false as stated: c1pool satisfies every hypothesis of the
claim (distinct identifiers, one rare, three uncommons, ten non-land commons,
one basic land), the shuffles are genuine permutations and the run is
accepted by the land-count validation, yet the returned pack holds two cards
of rarity rare — the rare slot and the rare-rarity basic land — not exactly
one rare-or-mythic. -/
theorem C1_counterexample :
    ((c1pool.map (fun c => c.id)).Nodup ∧
      1 ≤ (raresOf c1pool).length ∧
      3 ≤ (uncommonsOf c1pool).length ∧
      10 ≤ (c1pool.filter (fun c => c.rarity == "common" && !(basicLand c))).length ∧
      1 ≤ (landsOf c1pool).length ∧
      List.Perm c1rand.uncommonShuffle (uncommonsOf c1pool) ∧
      List.Perm c1rand.commonShuffle (commonsOf c1pool)) ∧
      generatePackAttempt c1pool c1rand = some c1cexPack ∧
      (c1cexPack.filter (fun c => c.rarity == "rare" || c.rarity == "mythic")).length = 2 := by
  refine ⟨⟨by decide, by decide, by decide, by decide, by decide,
    List.Perm.refl _, List.Perm.refl _⟩, by decide, by decide⟩

/-- A pool like c1pool but whose basic land has rarity common. -/
def c1goodPool : List Card :=
  [c1mk "r1" "rare" "Creature",
   c1mk "u1" "uncommon" "Creature", c1mk "u2" "uncommon" "Creature",
   c1mk "u3" "uncommon" "Creature",
   c1mk "cc1" "common" "Creature", c1mk "cc2" "common" "Creature",
   c1mk "cc3" "common" "Creature", c1mk "cc4" "common" "Creature",
   c1mk "cc5" "common" "Creature", c1mk "cc6" "common" "Creature",
   c1mk "cc7" "common" "Creature", c1mk "cc8" "common" "Creature",
   c1mk "cc9" "common" "Creature", c1mk "cc10" "common" "Creature",
   c1mk "l1" "common" "Basic Land - Plains"]

def c1goodRand : PackRand :=
  { useMythic := false
    rareIdx := 0
    rareFallbackIdx := 0
    uncommonShuffle := uncommonsOf c1goodPool
    commonShuffle := commonsOf c1goodPool
    landIdx := 0
    landFallbackIdx := 0 }

def c1goodPack : List Card :=
  [c1mk "r1" "rare" "Creature",
   c1mk "u1" "uncommon" "Creature", c1mk "u2" "uncommon" "Creature",
   c1mk "u3" "uncommon" "Creature",
   c1mk "cc1" "common" "Creature", c1mk "cc2" "common" "Creature",
   c1mk "cc3" "common" "Creature", c1mk "cc4" "common" "Creature",
   c1mk "cc5" "common" "Creature", c1mk "cc6" "common" "Creature",
   c1mk "cc7" "common" "Creature", c1mk "cc8" "common" "Creature",
   c1mk "cc9" "common" "Creature", c1mk "cc10" "common" "Creature",
   c1mk "l1" "common" "Basic Land - Plains"]

/-- Witness for C1_amended_theorem at a concrete well-formed pool. -/
theorem C1_amended_witness :
    c1goodPack.length = 15 ∧
      (c1goodPack.filter (fun c => c.rarity == "rare" || c.rarity == "mythic")).length = 1 ∧
      (c1goodPack.filter (fun c => c.rarity == "uncommon")).length = 3 ∧
      (c1goodPack.filter (fun c => c.rarity == "common" && !(basicLand c))).length = 10 ∧
      (c1goodPack.filter (fun c => basicLand c)).length = 1 ∧
      (c1goodPack.map (fun c => c.id)).Nodup :=
  C1_amended_theorem c1goodPool c1goodRand c1goodPack (by decide) (by decide) (by decide)
    (by decide) (by decide) (by decide) (List.Perm.refl _) (List.Perm.refl _) (by decide)

end MTGDraftSim
